import Mathlib

/-!
Verification of the PokerOK Session Tracker (`tracker.py`) against its
natural-language specification.

Shallow embedding conventions:
* A Python session dictionary is the structure `Session`; every CSV column is a
  field.  A field value is a `Val`: `Val.none` models Python `None` (and an
  absent key — every creation site of the program populates every key, and
  `dict.get` with an empty-string default makes the two indistinguishable for
  the code paths modelled here), `Val.str` models a `str`, and `Val.num`
  models an `int` or `float` by its exact rational value.
* Python `float` arithmetic is idealised as exact rational arithmetic (`ℚ`);
  Python's `round` (banker's rounding) is `pyround`/`round2`.
* `datetime` values are represented by their epoch-second count (an `ℤ`,
  computed with the standard days-from-civil algorithm);
  `datetime.fromisoformat` is the fragment parser `dt_from_iso`, which accepts
  exactly the `YYYY-MM-DDTHH:MM:SS` shape that `iso_now()`/`isoformat()`
  produce in this program.  `float(...)` on strings is the fragment parser
  `pyFloat` (sign, digits, decimal point, exponent).
* A Python function that can raise an uncaught exception is embedded as an
  `Option`-returning function; `Option.none` is the exception escaping.
-/

/-- A value stored in a session dictionary: Python `None`, a string, or an
`int`/`float` represented by its exact rational value. -/
inductive Val where
  | none : Val
  | str : String → Val
  | num : ℚ → Val
deriving DecidableEq, Repr

/-- Python truthiness of a `Val`: `None`, `""` and `0` are falsy. -/
def Val.truthy : Val → Bool
  | .none => false
  | .str s => s ≠ ""
  | .num q => q ≠ 0

/-- The normalization `if session.get(k) is None: session[k] = ""` applied to
one value (tracker.py lines 315-320). -/
def Val.nrm : Val → Val
  | .none => .str ""
  | v => v

/-- Digit run at the front of a character list: the digit values and the
remaining characters. -/
def takeDigits : List Char → List ℕ × List Char
  | [] => ([], [])
  | c :: r =>
    if c.isDigit then
      let p := takeDigits r
      ((c.toNat - 48) :: p.1, p.2)
    else ([], c :: r)

/-- Value of a list of decimal digit values, most significant first. -/
def digitsToNat (ds : List ℕ) : ℕ :=
  ds.foldl (fun a d => a * 10 + d) 0

/-- Optional leading sign; returns whether it was a minus and the rest. -/
def takeSign : List Char → Bool × List Char
  | '-' :: r => (true, r)
  | '+' :: r => (false, r)
  | l => (false, l)

/-- The syntactic pieces of a Python float literal: sign, integer-part digits,
fractional digits, exponent. -/
structure FloatParts where
  neg : Bool
  ip : List ℕ
  fp : List ℕ
  exp : ℤ
deriving DecidableEq, Repr

/-- Mantissa of a Python float literal: `digits [. digits]` or `. digits`.
Yields the integer and fractional digit lists and the rest. -/
def takeMantissa (l : List Char) : Option (List ℕ × List ℕ × List Char) :=
  let p := takeDigits l
  match p.2 with
  | '.' :: r2 =>
    let q := takeDigits r2
    if p.1.isEmpty ∧ q.1.isEmpty then .none
    else .some (p.1, q.1, q.2)
  | _ => if p.1.isEmpty then .none else .some (p.1, [], p.2)

/-- Optional exponent part `(e|E) [sign] digits` of a Python float literal;
yields the exponent (0 when there is none) and the rest, failing on a
malformed exponent. -/
def takeExpPart : List Char → Option (ℤ × List Char)
  | [] => .some (0, [])
  | c :: r =>
    if c = 'e' ∨ c = 'E' then
      let s := takeSign r
      let d := takeDigits s.2
      if d.1.isEmpty then .none
      else .some ((if s.1 then -(digitsToNat d.1 : ℤ) else (digitsToNat d.1 : ℤ)), d.2)
    else .some (0, c :: r)

/-- Syntactic fragment of CPython `float(str)`: `[sign] mantissa [exponent]`,
the whole string consumed.  (Whitespace, underscores, `inf` and `nan` are
outside the fragment.) -/
def pyFloatParts (l : List Char) : Option FloatParts :=
  let sg := takeSign l
  match takeMantissa sg.2 with
  | .none => .none
  | .some (ip, fp, r2) =>
    match takeExpPart r2 with
    | .none => .none
    | .some (e, r3) =>
      if r3 = [] then .some ⟨sg.1, ip, fp, e⟩ else .none

/-- Exact rational value of a parsed Python float literal. -/
def ratOfParts (p : FloatParts) : ℚ :=
  (if p.neg then (-1 : ℚ) else 1) *
    ((digitsToNat p.ip : ℚ) + (digitsToNat p.fp : ℚ) / (10 : ℚ) ^ p.fp.length) *
    (10 : ℚ) ^ p.exp

/-- Fragment of CPython `float(str)`: parse and take the exact value. -/
def pyFloat (s : String) : Option ℚ :=
  (pyFloatParts s.data).map ratOfParts

/-- `s.replace(",", ".")` for the one-character pattern: a character map. -/
def commaToDot (s : String) : String :=
  ⟨s.data.map (fun c => if c = ',' then '.' else c)⟩

/-- `_to_float` of tracker.py (lines 327-333): `None` and `""` give `None`;
strings are parsed after replacing `,` with `.`; a failed parse gives `None`;
a numeric value round-trips through `str` unchanged. -/
def _to_float : Val → Option ℚ
  | .none => .none
  | .str s => if s = "" then .none else pyFloat (commaToDot s)
  | .num q => .some q

/-- Truncation toward zero of a rational, as Python `int(float)`. -/
def qtrunc (q : ℚ) : ℤ :=
  if 0 ≤ q then ⌊q⌋ else -⌊-q⌋

/-- `_to_int` of tracker.py (lines 336-342): `int(float(str(v).replace(",", ".")))`. -/
def _to_int (v : Val) : Option ℤ :=
  (_to_float v).map qtrunc

/-- Python `round(x)` with no digits: round half to even, to an integer. -/
def pyround (x : ℚ) : ℤ :=
  let f := ⌊x⌋
  let r := x - f
  if r < 1/2 then f
  else if 1/2 < r then f + 1
  else if f % 2 = 0 then f else f + 1

/-- Python `round(x, 2)`: round half to even at two decimal places. -/
def round2 (x : ℚ) : ℚ :=
  (pyround (x * 100) : ℚ) / 100

/-- Two decimal digits at the front of a character list. -/
def read2 : List Char → Option (ℕ × List Char)
  | a :: b :: r =>
    if a.isDigit ∧ b.isDigit then .some ((a.toNat - 48) * 10 + (b.toNat - 48), r) else .none
  | _ => .none

/-- Four decimal digits at the front of a character list. -/
def read4 (l : List Char) : Option (ℕ × List Char) := do
  let (hi, r1) ← read2 l
  let (lo, r2) ← read2 r1
  pure (hi * 100 + lo, r2)

/-- Expect one specific character at the front of a character list. -/
def expectChar (c : Char) : List Char → Option (List Char)
  | d :: r => if d = c then .some r else .none
  | [] => .none

/-- Gregorian leap-year test. -/
def isLeap (y : ℤ) : Bool :=
  (y % 4 = 0 ∧ y % 100 ≠ 0) ∨ y % 400 = 0

/-- Number of days in a month of a given year. -/
def daysInMonth (y : ℤ) (m : ℕ) : ℕ :=
  if m = 2 then (if isLeap y then 29 else 28)
  else if m = 4 ∨ m = 6 ∨ m = 9 ∨ m = 11 then 30
  else 31

/-- Days since 1970-01-01 of a civil date (the standard days-from-civil
algorithm). -/
def daysFromCivil (y : ℤ) (m d : ℕ) : ℤ :=
  let y2 : ℤ := if m ≤ 2 then y - 1 else y
  let era : ℤ := (if 0 ≤ y2 then y2 else y2 - 399).tdiv 400
  let yoe : ℤ := y2 - era * 400
  let mp : ℕ := (m + 9) % 12
  let doy : ℤ := (((153 * mp + 2) / 5 : ℕ) : ℤ) + d - 1
  let doe : ℤ := yoe * 365 + yoe.tdiv 4 - yoe.tdiv 100 + doy
  era * 146097 + doe - 719468

/-- `dt_from_iso` of tracker.py (lines 148-149): `datetime.fromisoformat` on
the `YYYY-MM-DDTHH:MM:SS` shape this program writes, represented by the
epoch-second count; `Option.none` is the `ValueError` for anything else. -/
def dt_from_iso (s : String) : Option ℤ := do
  let (y, r1) ← read4 s.data
  let r2 ← expectChar '-' r1
  let (mo, r3) ← read2 r2
  let r4 ← expectChar '-' r3
  let (d, r5) ← read2 r4
  let r6 ← expectChar 'T' r5
  let (h, r7) ← read2 r6
  let r8 ← expectChar ':' r7
  let (mi, r9) ← read2 r8
  let r10 ← expectChar ':' r9
  let (se, r11) ← read2 r10
  if r11 = [] ∧ 1 ≤ mo ∧ mo ≤ 12 ∧ 1 ≤ d ∧ d ≤ daysInMonth y mo ∧
      h ≤ 23 ∧ mi ≤ 59 ∧ se ≤ 59 then
    pure (daysFromCivil (y : ℤ) mo d * 86400 + ((h * 3600 + mi * 60 + se : ℕ) : ℤ))
  else .none

/-- `duration_minutes` of tracker.py (lines 152-156):
`max(int(round((end - start).total_seconds() / 60)), 0)`; `Option.none` is the
uncaught `ValueError` from an unparseable timestamp. -/
def duration_minutes (start_iso end_iso : String) : Option ℤ := do
  let s ← dt_from_iso start_iso
  let e ← dt_from_iso end_iso
  pure (max (pyround (((e - s : ℤ) : ℚ) / 60)) 0)

/-- One session record: the dictionary with the fixed CSV column schema of
tracker.py (`CSV_FIELDS`, lines 212-236). -/
structure Session where
  id : Val
  poker_room : Val
  format : Val
  stake : Val
  currency : Val
  start_ts : Val
  end_ts : Val
  duration_min : Val
  bankroll_start : Val
  bankroll_end : Val
  profit : Val
  tables : Val
  note : Val
  hands : Val
  bb_value : Val
  bb_profit : Val
  bb_per_100 : Val
  buyin_total : Val
  prize_total : Val
  roi : Val
deriving DecidableEq, Repr

/-- Python `str.lower()` on the ASCII strings this program stores: a
character map. -/
def strLower (s : String) : String :=
  ⟨s.data.map Char.toLower⟩

/-- `session.get("format", "").lower()` (tracker.py line 274): a stored string
is lowercased, an absent value reads as `""`, and a number has no `.lower()`
(an uncaught `AttributeError`, i.e. `Option.none`). -/
def fmtLowerGet : Val → Option String
  | .str s => .some (strLower s)
  | .none => .some ""
  | .num _ => .none

/-- The duration rule of `compute_metrics` (tracker.py lines 278-280): fill
`duration_min` from the timestamps when it is empty and both are truthy;
`Option.none` is the uncaught exception from `duration_minutes` (a truthy
non-string or unparseable timestamp). -/
def durationStep (s : Session) : Option Session :=
  if s.duration_min = Val.str "" ∨ s.duration_min = Val.none then
    if s.start_ts.truthy ∧ s.end_ts.truthy then
      match s.start_ts, s.end_ts with
      | .str a, .str b =>
        match duration_minutes a b with
        | .some m => .some { s with duration_min := .num (m : ℚ) }
        | .none => .none
      | _, _ => .none
    else .some s
  else .some s

/-- The guard `fmt in ("mtt", "spin") and buyin is not None and prize is not
None` of the profit rule (tracker.py line 289), with the two parsed totals it
lets through. -/
def mttTotals (fmt : String) (s : Session) : Option (ℚ × ℚ) :=
  if fmt = "mtt" ∨ fmt = "spin" then
    (_to_float s.buyin_total).bind fun b =>
      (_to_float s.prize_total).map fun p => (b, p)
  else .none

/-- The profit rule of `compute_metrics` (tracker.py lines 282-295): for
`mtt`/`spin` with both `buyin_total` and `prize_total` parseable,
`profit = round(prize - buyin, 2)`; otherwise, with both bankroll figures
parseable, `profit = round(end - start, 2)`; otherwise `profit` is untouched. -/
def profitStep (fmt : String) (s : Session) : Session :=
  match mttTotals fmt s with
  | .some (b, p) => { s with profit := .num (round2 (p - b)) }
  | .none =>
    match _to_float s.bankroll_start, _to_float s.bankroll_end with
    | .some a, .some c => { s with profit := .num (round2 (c - a)) }
    | _, _ => s

/-- The cash bb-metrics rule of `compute_metrics` (tracker.py lines 297-306):
for `cash` with `profit` and a positive `bb_value` parseable,
`bb_profit = round(profit / bb_value, 2)`, and with a positive `hands` also
`bb_per_100 = round((profit / bb_value / hands) * 100, 2)` — note the code
divides the unrounded quotient, not the rounded `bb_profit` field. -/
def cashStep (fmt : String) (s : Session) : Session :=
  if fmt = "cash" then
    match _to_float s.profit, _to_float s.bb_value with
    | .some pr, .some bbv =>
      if 0 < bbv then
        let bb_profit := pr / bbv
        let s1 := { s with bb_profit := .num (round2 bb_profit) }
        match _to_int s.hands with
        | .some h =>
          if 0 < h then { s1 with bb_per_100 := .num (round2 (bb_profit / (h : ℚ) * 100)) }
          else s1
        | .none => s1
      else s
    | _, _ => s
  else s

/-- The ROI rule of `compute_metrics` (tracker.py lines 308-312): for
`mtt`/`spin` with `profit` and a positive `buyin_total` parseable,
`roi = round((profit / buyin) * 100, 2)`. -/
def roiStep (fmt : String) (s : Session) : Session :=
  if fmt = "mtt" ∨ fmt = "spin" then
    match _to_float s.buyin_total, _to_float s.profit with
    | .some b, .some pr =>
      if 0 < b then { s with roi := .num (round2 (pr / b * 100)) }
      else s
    | _, _ => s
  else s

/-- The final normalization of `compute_metrics` (tracker.py lines 314-323):
`None` becomes `""` in the listed fields, and `currency` is replaced by the
value captured at entry (`session.get("currency", "") or ""`). -/
def normalizeStep (s : Session) (currency : Val) : Session :=
  { s with
    tables := s.tables.nrm, hands := s.hands.nrm,
    bb_value := s.bb_value.nrm, bb_profit := s.bb_profit.nrm,
    bb_per_100 := s.bb_per_100.nrm, buyin_total := s.buyin_total.nrm,
    prize_total := s.prize_total.nrm, roi := s.roi.nrm,
    currency := currency }

/-- `session.get("currency", "") or ""` (tracker.py line 275): keep a truthy
value, read any falsy one as `""`. -/
def curNorm (v : Val) : Val :=
  if v.truthy then v else .str ""

/-- `compute_metrics` of tracker.py (lines 272-324); `Option.none` is an
uncaught exception escaping (a non-string `format`, or an unparseable truthy
timestamp hit by the duration rule). -/
def compute_metrics (s : Session) : Option Session := do
  let fmt ← fmtLowerGet s.format
  let currency := curNorm s.currency
  let s1 ← durationStep s
  pure (normalizeStep (roiStep fmt (cashStep fmt (profitStep fmt s1))) currency)

/-- The externally visible tracker state: the persisted draft file
(`active_session.json`; `Option.none` when absent) and the persisted CSV row
collection. -/
structure TrackerState where
  active : Option Session
  rows : List Session
deriving DecidableEq, Repr

/-- The values collected by the prompting layer of `cmd_start` (tracker.py
lines 356-364), which is out of scope: `fmt` is one of the `FORMATS`,
`currency` is already uppercased, `bankroll_start ≥ 0`, `tables ≥ 1` when
given; `newId` is the fresh `uuid4` and `now` the `iso_now()` stamp. -/
structure StartInputs where
  fmt : String
  stake : String
  currency : String
  bankroll_start : ℚ
  tables : Option ℕ
  note : String
  newId : String
  now : String
deriving DecidableEq, Repr

/-- The draft dictionary built by `cmd_start` (tracker.py lines 366-387). -/
def mkDraft (i : StartInputs) : Session :=
  { id := .str i.newId
    poker_room := .str "PokerOK"
    format := .str i.fmt
    stake := .str i.stake
    currency := .str i.currency
    start_ts := .str i.now
    end_ts := .str ""
    duration_min := .str ""
    bankroll_start := .num i.bankroll_start
    bankroll_end := .str ""
    profit := .str ""
    tables := match i.tables with | .some t => .num (t : ℚ) | .none => .str ""
    note := .str i.note
    hands := .str ""
    bb_value := .str ""
    bb_profit := .str ""
    bb_per_100 := .str ""
    buyin_total := .str ""
    prize_total := .str ""
    roi := .str "" }

/-- `cmd_start` of tracker.py (lines 349-394) as a state transition: exit
status and next persisted state.  An existing draft aborts with status 2 and
no state change; otherwise the new draft is persisted. -/
def cmd_start (st : TrackerState) (i : StartInputs) : ℤ × TrackerState :=
  match st.active with
  | .some _ => (2, st)
  | .none => (0, { st with active := .some (mkDraft i) })

/-- The values collected by the prompting layer of `cmd_end` (tracker.py lines
440-462): `bankroll_end ≥ 0`; `hands`/`bb_value` are only prompted for cash,
`mtt_totals` only for mtt/spin; `now` is the `iso_now()` end stamp. -/
structure EndInputs where
  bankroll_end : ℚ
  hands : Option ℕ
  bb_value : Option ℚ
  mtt_totals : Option (ℚ × ℚ)
  note_end : String
  now : String
deriving DecidableEq, Repr

/-- `(active.get("format") or "").lower()` (tracker.py line 435): falsy values
read as `""`; a truthy number has no `.lower()` (uncaught exception). -/
def fmtLowerOr : Val → Option String
  | .str s => .some (strLower s)
  | .none => .some ""
  | .num q => if q = 0 then .some "" else .none

/-- The closing-note append of `cmd_end` (tracker.py lines 462-465):
`(base + " | " if base else "") + note_end` on the session's `note`;
`Option.none` is the `TypeError` of concatenating a truthy number. -/
def noteVal (v : Val) (note_end : String) : Option Val :=
  match v with
  | .str b => .some (.str ((if b ≠ "" then b ++ " | " else "") ++ note_end))
  | .none => .some (.str note_end)
  | .num q => if q = 0 then .some (.str note_end) else .none

/-- The cash-specific hands and bb-value entries of `cmd_end` (tracker.py
lines 443-452); a zero bb-value is warned about and not stored. -/
def endCashMut (fmt : String) (i : EndInputs) (a0 : Session) : Session :=
  if fmt = "cash" then
    let aH := match i.hands with
      | .some h => { a0 with hands := Val.num (h : ℚ) }
      | .none => a0
    match i.bb_value with
    | .some bb => if bb = 0 then aH else { aH with bb_value := Val.num bb }
    | .none => aH
  else a0

/-- The mtt/spin totals entry of `cmd_end` (tracker.py lines 454-460). -/
def endMttMut (fmt : String) (i : EndInputs) (a1 : Session) : Session :=
  if fmt = "mtt" ∨ fmt = "spin" then
    match i.mtt_totals with
    | .some (b, p) => { a1 with buyin_total := Val.num b, prize_total := Val.num p }
    | .none => a1
  else a1

/-- The closing-note entry of `cmd_end` (tracker.py lines 462-465). -/
def endNoteMut (i : EndInputs) (a2 : Session) : Option Session :=
  if i.note_end = "" then .some a2
  else (noteVal a2.note i.note_end).map fun v => { a2 with note := v }

/-- The bankroll-end and end-stamp writes of `cmd_end` (tracker.py lines
467-468). -/
def endStamp (i : EndInputs) (a3 : Session) : Session :=
  { a3 with bankroll_end := Val.num i.bankroll_end, end_ts := Val.str i.now }

/-- The chronological validation of `cmd_end` (tracker.py lines 470-476):
true exactly when both stamps parse and `end <= start`; any exception inside
the `try` block is swallowed. -/
def chronoBad (i : EndInputs) (a4 : Session) : Bool :=
  match dt_from_iso i.now, a4.start_ts with
  | .some e, .str sts =>
    match dt_from_iso sts with
    | .some t => decide (e ≤ t)
    | .none => false
  | _, _ => false

/-- `cmd_end` of tracker.py (lines 428-485) as a state transition on the
persisted state; `Option.none` is an uncaught exception escaping (nothing is
persisted then either — mutations before `save`/`append` live only in
memory).  No draft aborts with status 2; a computed end stamp not strictly
after a parseable start stamp aborts with status 2 and the draft intact; on
success the finalized record is appended and the draft cleared. -/
def cmd_end (st : TrackerState) (i : EndInputs) : Option (ℤ × TrackerState) :=
  match st.active with
  | .none => .some (2, st)
  | .some a0 => do
    let fmt ← fmtLowerOr a0.format
    let a3 ← endNoteMut i (endMttMut fmt i (endCashMut fmt i a0))
    let a4 := endStamp i a3
    if chronoBad i a4 then pure (2, st)
    else do
      let sess ← compute_metrics a4
      pure (0, ⟨Option.none, st.rows ++ [sess]⟩)

/-- The resolved timestamps of a one-shot `cmd_log` entry with explicit
start/end clock times (tracker.py lines 506-524).  `datetime` values are
represented by epoch seconds: `dateSecs` is midnight of the supplied date and
`sh:sm` / `eh:em` the validated `HH:MM` times; under this representation
`isoformat`/`fromisoformat` round-trip is the identity, so
`duration_minutes(start_ts, end_ts)` is `max(round(Δseconds / 60), 0)`. -/
structure LogTimes where
  start_secs : ℤ
  end_secs : ℤ
  dur_min : ℤ
deriving DecidableEq, Repr

/-- Lines 515-524 of tracker.py: build both datetimes on the supplied date,
roll the end into the next day when it is not strictly after the start, and
derive the duration. -/
def cmd_log_times (dateSecs : ℤ) (sh sm eh em : ℕ) : LogTimes :=
  let start_dt : ℤ := dateSecs + ((sh * 3600 + sm * 60 : ℕ) : ℤ)
  let end_dt0 : ℤ := dateSecs + ((eh * 3600 + em * 60 : ℕ) : ℤ)
  let end_dt : ℤ := if end_dt0 ≤ start_dt then end_dt0 + 86400 else end_dt0
  ⟨start_dt, end_dt, max (pyround (((end_dt - start_dt : ℤ) : ℚ) / 60)) 0⟩

/-- Per-format accumulator of `cmd_stats` (tracker.py line 681). -/
structure Agg where
  sessions : ℕ
  profit : ℚ
  minutes : ℤ
  hands : ℤ
  bb_profit : ℚ
  buyin : ℚ
  prize : ℚ
deriving DecidableEq, Repr

/-- The zero accumulator. -/
def Agg.init : Agg := ⟨0, 0, 0, 0, 0, 0, 0⟩

/-- The three per-format accumulators (`ag` of tracker.py line 681). -/
structure FormatAggs where
  cash : Agg
  mtt : Agg
  spin : Agg
deriving DecidableEq, Repr

/-- `x or 0.0` on an optional number (tracker.py lines 685, 697-698, 703-704). -/
def orQ (o : Option ℚ) : ℚ := o.getD 0

/-- `x or 0` on an optional integer (tracker.py line 686). -/
def orZ (o : Option ℤ) : ℤ := o.getD 0

/-- `(r.get("format") or "").lower()` for a CSV row (tracker.py line 684).
Rows read back from the CSV hold strings in every field, so only the string
and falsy cases are modelled. -/
def rowFmt (r : Session) : String :=
  match r.format with
  | .str s => strLower s
  | _ => ""

/-- The per-record count/profit/minutes bump (tracker.py lines 692-694). -/
def Agg.bump (a : Agg) (profit : ℚ) (dur : ℤ) : Agg :=
  { a with sessions := a.sessions + 1, profit := a.profit + profit, minutes := a.minutes + dur }

/-- One iteration of the aggregation loop of `cmd_stats` (tracker.py lines
683-706). -/
def aggStep (ag : FormatAggs) (r : Session) : FormatAggs :=
  let fmt := rowFmt r
  let profit := orQ (_to_float r.profit)
  let dur := orZ (_to_int r.duration_min)
  let ag1 :=
    if fmt = "cash" then { ag with cash := ag.cash.bump profit dur }
    else if fmt = "mtt" then { ag with mtt := ag.mtt.bump profit dur }
    else if fmt = "spin" then { ag with spin := ag.spin.bump profit dur }
    else ag
  let ag2 :=
    if fmt = "cash" then
      { ag1 with cash :=
        { ag1.cash with
          hands := ag1.cash.hands + orZ (_to_int r.hands),
          bb_profit := ag1.cash.bb_profit + orQ (_to_float r.bb_profit) } }
    else ag1
  if fmt = "mtt" then
    { ag2 with mtt :=
      { ag2.mtt with
        buyin := ag2.mtt.buyin + orQ (_to_float r.buyin_total),
        prize := ag2.mtt.prize + orQ (_to_float r.prize_total) } }
  else if fmt = "spin" then
    { ag2 with spin :=
      { ag2.spin with
        buyin := ag2.spin.buyin + orQ (_to_float r.buyin_total),
        prize := ag2.spin.prize + orQ (_to_float r.prize_total) } }
  else ag2

/-- The aggregation loop of `cmd_stats` over the filtered records. -/
def aggregate (filt : List Session) : FormatAggs :=
  filt.foldl aggStep ⟨Agg.init, Agg.init, Agg.init⟩

/-- The date of a row's `start_ts` as a day number (tracker.py lines 659-664);
`Option.none` means the row is dropped as corrupted. -/
def rowDay (r : Session) : Option ℤ :=
  match r.start_ts with
  | .str s => (dt_from_iso s).map fun t => t.fdiv 86400
  | _ => .none

/-- The record filter of `cmd_stats` (tracker.py lines 655-669): format match
first, then a parseable `start_ts` whose date lies in the inclusive
`[from_d, to_d]` window (a missing bound is unbounded). -/
def keepRow (from_d to_d : Option ℤ) (fmt_filter : Option String) (r : Session) : Bool :=
  (match fmt_filter with
   | .some f => decide (rowFmt r = f)
   | .none => true) &&
  (match rowDay r with
   | .some d =>
     (match from_d with | .some fd => decide (fd ≤ d) | .none => true) &&
     (match to_d with | .some td => decide (d ≤ td) | .none => true)
   | .none => false)

/-- `filt` of `cmd_stats` (tracker.py lines 655-669). -/
def filterRows (rows : List Session) (from_d to_d : Option ℤ) (fmt_filter : Option String) :
    List Session :=
  rows.filter (keepRow from_d to_d fmt_filter)

/-- The tournament/spin ROI printed by the breakdown (tracker.py lines
756-759): from the summed totals, absent unless the summed buy-in is
positive. -/
def roiOfAgg (a : Agg) : Option ℚ :=
  if 0 < a.buyin then .some ((a.prize - a.buyin) / a.buyin * 100) else .none

/-- The cash bb/100 printed by the breakdown (tracker.py lines 744-747): from
the summed totals, absent unless the summed hands is positive. -/
def bb100OfAgg (a : Agg) : Option ℚ :=
  if 0 < a.hands then .some (a.bb_profit / (a.hands : ℚ) * 100) else .none

/-- Summed `buyin_total` of the records of one format in a list (absent
parsed as 0), the spec's phrase "summed buyin_total". -/
def sumBuyin (f : String) (l : List Session) : ℚ :=
  ((l.filter fun r => rowFmt r = f).map fun r => orQ (_to_float r.buyin_total)).sum

/-- Summed `prize_total` of the records of one format in a list. -/
def sumPrize (f : String) (l : List Session) : ℚ :=
  ((l.filter fun r => rowFmt r = f).map fun r => orQ (_to_float r.prize_total)).sum

/-- Summed `hands` of the cash records in a list. -/
def sumHandsCash (l : List Session) : ℤ :=
  ((l.filter fun r => rowFmt r = "cash").map fun r => orZ (_to_int r.hands)).sum

/-- Summed `bb_profit` of the cash records in a list. -/
def sumBbProfitCash (l : List Session) : ℚ :=
  ((l.filter fun r => rowFmt r = "cash").map fun r => orQ (_to_float r.bb_profit)).sum

/-- A value that the CSV schema treats as absent: `None` or the empty
string. -/
def Val.absent (v : Val) : Prop :=
  v = Val.none ∨ v = Val.str ""

theorem to_float_nrm (v : Val) : _to_float v.nrm = _to_float v := by
  cases v <;> simp [Val.nrm, _to_float]

theorem to_int_nrm (v : Val) : _to_int v.nrm = _to_int v := by
  simp [_to_int, to_float_nrm]

theorem nrm_idem (v : Val) : v.nrm.nrm = v.nrm := by
  cases v <;> simp [Val.nrm]

theorem nrm_absent (v : Val) (h : v.absent) : v.nrm = Val.str "" := by
  rcases h with h | h <;> simp [h, Val.nrm]

theorem curNorm_idem (v : Val) : curNorm (curNorm v) = curNorm v := by
  unfold curNorm
  split
  · rfl
  · simp [Val.truthy]

theorem durationStep_shape (s s' : Session) (h : durationStep s = .some s') :
    s' = s ∨ ∃ m : ℚ, s' = { s with duration_min := Val.num m } := by
  unfold durationStep at h
  split at h
  · split at h
    · split at h
      · split at h
        · right; exact ⟨_, (Option.some.injEq _ _ ▸ h.symm)⟩
        · exact absurd h (by simp)
      · exact absurd h (by simp)
    · left; exact (Option.some.injEq _ _ ▸ h.symm)
  · left; exact (Option.some.injEq _ _ ▸ h.symm)

theorem profitStep_shape (fmt : String) (s : Session) :
    profitStep fmt s = s ∨ ∃ q : ℚ, profitStep fmt s = { s with profit := Val.num q } := by
  unfold profitStep
  split
  · right; exact ⟨_, rfl⟩
  · split
    · right; exact ⟨_, rfl⟩
    · left; rfl

theorem cashStep_shape (fmt : String) (s : Session) :
    cashStep fmt s = s ∨
    (∃ q : ℚ, cashStep fmt s = { s with bb_profit := Val.num q }) ∨
    (∃ q w : ℚ, cashStep fmt s = { s with bb_profit := Val.num q, bb_per_100 := Val.num w }) := by
  unfold cashStep
  split
  · split
    · split
      · split
        · split
          · right; right; exact ⟨_, _, rfl⟩
          · right; left; exact ⟨_, rfl⟩
        · right; left; exact ⟨_, rfl⟩
      · left; rfl
    · left; rfl
  · left; rfl

theorem roiStep_shape (fmt : String) (s : Session) :
    roiStep fmt s = s ∨ ∃ q : ℚ, roiStep fmt s = { s with roi := Val.num q } := by
  unfold roiStep
  split
  · split
    · split
      · right; exact ⟨_, rfl⟩
      · left; rfl
    · left; rfl
  · left; rfl

theorem mttTotals_some (fmt : String) (s : Session) (b p : ℚ)
    (hc : fmt = "mtt" ∨ fmt = "spin")
    (hb : _to_float s.buyin_total = .some b) (hp : _to_float s.prize_total = .some p) :
    mttTotals fmt s = .some (b, p) := by
  unfold mttTotals
  rw [if_pos hc, hb, hp]
  rfl

theorem mttTotals_none (fmt : String) (s : Session)
    (h : ¬((fmt = "mtt" ∨ fmt = "spin") ∧
        (_to_float s.buyin_total).isSome ∧ (_to_float s.prize_total).isSome)) :
    mttTotals fmt s = .none := by
  unfold mttTotals
  split
  · cases hb : _to_float s.buyin_total <;> cases hp : _to_float s.prize_total <;> simp_all
  · rfl

theorem profitStep_mtt (fmt : String) (s : Session) (b p : ℚ)
    (hc : fmt = "mtt" ∨ fmt = "spin")
    (hb : _to_float s.buyin_total = .some b) (hp : _to_float s.prize_total = .some p) :
    profitStep fmt s = { s with profit := Val.num (round2 (p - b)) } := by
  unfold profitStep
  rw [mttTotals_some fmt s b p hc hb hp]

theorem profitStep_bank (fmt : String) (s : Session) (a c : ℚ)
    (hn : mttTotals fmt s = .none)
    (ha : _to_float s.bankroll_start = .some a) (hc : _to_float s.bankroll_end = .some c) :
    profitStep fmt s = { s with profit := Val.num (round2 (c - a)) } := by
  unfold profitStep
  rw [hn, ha, hc]

theorem profitStep_id (fmt : String) (s : Session)
    (hn : mttTotals fmt s = .none)
    (h : _to_float s.bankroll_start = .none ∨ _to_float s.bankroll_end = .none) :
    profitStep fmt s = s := by
  unfold profitStep
  rw [hn]
  rcases h with h | h
  · rw [h]
  · rw [h]
    cases _to_float s.bankroll_start <;> rfl

theorem cashStep_full (s : Session) (pr bb : ℚ) (h2 : ℤ)
    (hpr : _to_float s.profit = .some pr) (hbb : _to_float s.bb_value = .some bb)
    (hpos : 0 < bb) (hh : _to_int s.hands = .some h2) (hhpos : 0 < h2) :
    cashStep "cash" s = { s with bb_profit := Val.num (round2 (pr / bb)),
                                 bb_per_100 := Val.num (round2 (pr / bb / (h2 : ℚ) * 100)) } := by
  unfold cashStep
  rw [if_pos rfl, hpr, hbb, hh]
  simp [hpos, hhpos]

theorem cashStep_noHands (s : Session) (pr bb : ℚ)
    (hpr : _to_float s.profit = .some pr) (hbb : _to_float s.bb_value = .some bb)
    (hpos : 0 < bb)
    (hh : _to_int s.hands = .none ∨ ∃ h2 : ℤ, _to_int s.hands = .some h2 ∧ ¬0 < h2) :
    cashStep "cash" s = { s with bb_profit := Val.num (round2 (pr / bb)) } := by
  unfold cashStep
  rw [if_pos rfl, hpr, hbb]
  rcases hh with hh | ⟨h2, hh, hneg⟩
  · rw [hh]
    simp [hpos]
  · rw [hh]
    simp [hpos, hneg]

theorem cashStep_off (s : Session)
    (h : _to_float s.profit = .none ∨ _to_float s.bb_value = .none ∨
        ∃ bb : ℚ, _to_float s.bb_value = .some bb ∧ ¬0 < bb) :
    cashStep "cash" s = s := by
  unfold cashStep
  rw [if_pos rfl]
  rcases h with h | h | ⟨bb, h, hneg⟩
  · rw [h]
  · rw [h]
    cases _to_float s.profit <;> rfl
  · rw [h]
    cases _to_float s.profit <;> simp [hneg]

theorem cashStep_notCash (fmt : String) (s : Session) (h : fmt ≠ "cash") :
    cashStep fmt s = s := by
  unfold cashStep
  rw [if_neg h]

theorem roiStep_some (fmt : String) (s : Session) (b pr : ℚ)
    (hc : fmt = "mtt" ∨ fmt = "spin")
    (hb : _to_float s.buyin_total = .some b) (hpr : _to_float s.profit = .some pr)
    (hpos : 0 < b) :
    roiStep fmt s = { s with roi := Val.num (round2 (pr / b * 100)) } := by
  unfold roiStep
  rw [if_pos hc, hb, hpr]
  simp [hpos]

theorem roiStep_off (fmt : String) (s : Session)
    (h : _to_float s.buyin_total = .none ∨ _to_float s.profit = .none ∨
        ∃ b : ℚ, _to_float s.buyin_total = .some b ∧ ¬0 < b) :
    roiStep fmt s = s := by
  unfold roiStep
  split
  · rcases h with h | h | ⟨b, h, hneg⟩
    · rw [h]
    · rw [h]; cases _to_float s.buyin_total <;> rfl
    · rw [h]; cases _to_float s.profit <;> simp [hneg]
  · rfl

theorem roiStep_notMtt (fmt : String) (s : Session) (h : ¬(fmt = "mtt" ∨ fmt = "spin")) :
    roiStep fmt s = s := by
  unfold roiStep
  rw [if_neg h]

theorem durationStep_keep (s s1 : Session) (h : durationStep s = .some s1) :
    s1.format = s.format ∧ s1.start_ts = s.start_ts ∧ s1.end_ts = s.end_ts ∧
    s1.bankroll_start = s.bankroll_start ∧ s1.bankroll_end = s.bankroll_end ∧
    s1.buyin_total = s.buyin_total ∧ s1.prize_total = s.prize_total ∧
    s1.hands = s.hands ∧ s1.bb_value = s.bb_value ∧ s1.profit = s.profit ∧
    s1.bb_profit = s.bb_profit ∧ s1.bb_per_100 = s.bb_per_100 ∧ s1.roi = s.roi ∧
    s1.tables = s.tables ∧ s1.currency = s.currency ∧ s1.note = s.note ∧
    s1.id = s.id ∧ s1.poker_room = s.poker_room ∧ s1.stake = s.stake := by
  rcases durationStep_shape s s1 h with h1 | ⟨m, h1⟩ <;> subst h1 <;>
    exact ⟨rfl, rfl, rfl, rfl, rfl, rfl, rfl, rfl, rfl, rfl, rfl, rfl, rfl, rfl, rfl, rfl,
      rfl, rfl, rfl⟩

theorem profitStep_keep (fmt : String) (t : Session) :
    (profitStep fmt t).format = t.format ∧ (profitStep fmt t).start_ts = t.start_ts ∧
    (profitStep fmt t).end_ts = t.end_ts ∧ (profitStep fmt t).duration_min = t.duration_min ∧
    (profitStep fmt t).bankroll_start = t.bankroll_start ∧
    (profitStep fmt t).bankroll_end = t.bankroll_end ∧
    (profitStep fmt t).buyin_total = t.buyin_total ∧
    (profitStep fmt t).prize_total = t.prize_total ∧
    (profitStep fmt t).hands = t.hands ∧ (profitStep fmt t).bb_value = t.bb_value ∧
    (profitStep fmt t).bb_profit = t.bb_profit ∧
    (profitStep fmt t).bb_per_100 = t.bb_per_100 ∧
    (profitStep fmt t).roi = t.roi ∧ (profitStep fmt t).tables = t.tables ∧
    (profitStep fmt t).currency = t.currency ∧ (profitStep fmt t).note = t.note ∧
    (profitStep fmt t).id = t.id ∧ (profitStep fmt t).poker_room = t.poker_room ∧
    (profitStep fmt t).stake = t.stake := by
  rcases profitStep_shape fmt t with h1 | ⟨q, h1⟩ <;> rw [h1] <;>
    exact ⟨rfl, rfl, rfl, rfl, rfl, rfl, rfl, rfl, rfl, rfl, rfl, rfl, rfl, rfl, rfl, rfl,
      rfl, rfl, rfl⟩

theorem cashStep_keep (fmt : String) (t : Session) :
    (cashStep fmt t).format = t.format ∧ (cashStep fmt t).start_ts = t.start_ts ∧
    (cashStep fmt t).end_ts = t.end_ts ∧ (cashStep fmt t).duration_min = t.duration_min ∧
    (cashStep fmt t).bankroll_start = t.bankroll_start ∧
    (cashStep fmt t).bankroll_end = t.bankroll_end ∧
    (cashStep fmt t).buyin_total = t.buyin_total ∧
    (cashStep fmt t).prize_total = t.prize_total ∧
    (cashStep fmt t).hands = t.hands ∧ (cashStep fmt t).bb_value = t.bb_value ∧
    (cashStep fmt t).profit = t.profit ∧ (cashStep fmt t).roi = t.roi ∧
    (cashStep fmt t).tables = t.tables ∧ (cashStep fmt t).currency = t.currency ∧
    (cashStep fmt t).note = t.note ∧ (cashStep fmt t).id = t.id ∧
    (cashStep fmt t).poker_room = t.poker_room ∧ (cashStep fmt t).stake = t.stake := by
  rcases cashStep_shape fmt t with h1 | ⟨q, h1⟩ | ⟨q, w, h1⟩ <;> rw [h1] <;>
    exact ⟨rfl, rfl, rfl, rfl, rfl, rfl, rfl, rfl, rfl, rfl, rfl, rfl, rfl, rfl, rfl, rfl,
      rfl, rfl⟩

theorem roiStep_keep (fmt : String) (t : Session) :
    (roiStep fmt t).format = t.format ∧ (roiStep fmt t).start_ts = t.start_ts ∧
    (roiStep fmt t).end_ts = t.end_ts ∧ (roiStep fmt t).duration_min = t.duration_min ∧
    (roiStep fmt t).bankroll_start = t.bankroll_start ∧
    (roiStep fmt t).bankroll_end = t.bankroll_end ∧
    (roiStep fmt t).buyin_total = t.buyin_total ∧
    (roiStep fmt t).prize_total = t.prize_total ∧
    (roiStep fmt t).hands = t.hands ∧ (roiStep fmt t).bb_value = t.bb_value ∧
    (roiStep fmt t).profit = t.profit ∧ (roiStep fmt t).bb_profit = t.bb_profit ∧
    (roiStep fmt t).bb_per_100 = t.bb_per_100 ∧ (roiStep fmt t).tables = t.tables ∧
    (roiStep fmt t).currency = t.currency ∧ (roiStep fmt t).note = t.note ∧
    (roiStep fmt t).id = t.id ∧ (roiStep fmt t).poker_room = t.poker_room ∧
    (roiStep fmt t).stake = t.stake := by
  rcases roiStep_shape fmt t with h1 | ⟨q, h1⟩ <;> rw [h1] <;>
    exact ⟨rfl, rfl, rfl, rfl, rfl, rfl, rfl, rfl, rfl, rfl, rfl, rfl, rfl, rfl, rfl, rfl,
      rfl, rfl, rfl⟩

theorem normalizeStep_fields (t : Session) (cur : Val) :
    (normalizeStep t cur).format = t.format ∧ (normalizeStep t cur).start_ts = t.start_ts ∧
    (normalizeStep t cur).end_ts = t.end_ts ∧
    (normalizeStep t cur).duration_min = t.duration_min ∧
    (normalizeStep t cur).bankroll_start = t.bankroll_start ∧
    (normalizeStep t cur).bankroll_end = t.bankroll_end ∧
    (normalizeStep t cur).buyin_total = t.buyin_total.nrm ∧
    (normalizeStep t cur).prize_total = t.prize_total.nrm ∧
    (normalizeStep t cur).hands = t.hands.nrm ∧
    (normalizeStep t cur).bb_value = t.bb_value.nrm ∧
    (normalizeStep t cur).profit = t.profit ∧
    (normalizeStep t cur).bb_profit = t.bb_profit.nrm ∧
    (normalizeStep t cur).bb_per_100 = t.bb_per_100.nrm ∧
    (normalizeStep t cur).roi = t.roi.nrm ∧
    (normalizeStep t cur).tables = t.tables.nrm ∧
    (normalizeStep t cur).currency = cur ∧ (normalizeStep t cur).note = t.note ∧
    (normalizeStep t cur).id = t.id ∧ (normalizeStep t cur).poker_room = t.poker_room ∧
    (normalizeStep t cur).stake = t.stake :=
  ⟨rfl, rfl, rfl, rfl, rfl, rfl, rfl, rfl, rfl, rfl, rfl, rfl, rfl, rfl, rfl, rfl, rfl,
    rfl, rfl, rfl⟩

theorem compute_metrics_parts (s r : Session) (h : compute_metrics s = .some r) :
    ∃ f s1, fmtLowerGet s.format = .some f ∧ durationStep s = .some s1 ∧
      r = normalizeStep (roiStep f (cashStep f (profitStep f s1))) (curNorm s.currency) := by
  unfold compute_metrics at h
  cases hf : fmtLowerGet s.format <;> rw [hf] at h
  · simp at h
  · cases hd : durationStep s <;> rw [hd] at h
    · simp at h
    · exact ⟨_, _, rfl, rfl, by simpa using h.symm⟩

theorem commaToDot_idem (s : String) : commaToDot (commaToDot s) = commaToDot s := by
  unfold commaToDot
  refine congrArg String.mk ?_
  show List.map _ (List.map _ s.data) = _
  rw [List.map_map]
  refine List.map_congr_left fun c _ => ?_
  by_cases h : c = ',' <;> simp [h]

theorem commaToDot_empty_iff (s : String) : commaToDot s = "" ↔ s = "" := by
  constructor
  · intro h
    have h2 : (commaToDot s).data = [] := by rw [h]
    have h3 : s.data = [] := by
      have := h2
      simpa [commaToDot] using this
    cases s
    simp_all
  · intro h
    rw [h]
    rfl

/-- C7: `_to_float` accepts both `.` and `,` as the decimal separator — a raw
string parses to the same optional number as the same string with every `,`
replaced by `.` — and any string whose (comma-normalized) parse fails yields
`None`, never `0`. -/
theorem to_float_separator_and_failure (s : String) :
    _to_float (.str s) = _to_float (.str (commaToDot s)) ∧
    (pyFloat (commaToDot s) = .none → _to_float (.str s) = .none) := by
  constructor
  · simp only [_to_float]
    by_cases h : s = ""
    · subst h
      rfl
    · have h2 : commaToDot s ≠ "" := fun hc => h ((commaToDot_empty_iff s).mp hc)
      rw [if_neg h, if_neg h2, commaToDot_idem]
  · intro hp
    simp only [_to_float]
    by_cases h : s = ""
    · rw [if_pos h]
    · rw [if_neg h, hp]

/-- Witness for C7: `"1,5"` parses like `"1.5"`, and the unparseable `"12x"`
is absent rather than zero. -/
theorem to_float_separator_and_failure_witness :
    _to_float (.str "1,5") = _to_float (.str "1.5") ∧ _to_float (.str "12x") = .none := by
  constructor
  · have h := (to_float_separator_and_failure "1,5").1
    have e : commaToDot "1,5" = "1.5" := by decide
    rw [e] at h
    exact h
  · exact (to_float_separator_and_failure "12x").2 (by decide)

/-- C5: whenever a draft exists, `cmd_start` fails with user-error status 2
(`AlreadyActive`) and changes neither the draft nor the persisted rows; in
particular a second `cmd_start` without an intervening finalize fails exactly
this way. -/
theorem cmd_start_already_active (st : TrackerState) (i j : StartInputs) :
    (∀ d, st.active = .some d → cmd_start st i = (2, st)) ∧
    (st.active = Option.none →
      cmd_start (cmd_start st i).2 j = (2, (cmd_start st i).2)) := by
  constructor
  · intro d hd
    unfold cmd_start
    rw [hd]
  · intro h
    simp [cmd_start, h]

/-- Witness for C5: starting twice from the empty state; the second start
fails with status 2 and leaves the state of the first start intact. -/
theorem cmd_start_already_active_witness :
    cmd_start (cmd_start ⟨Option.none, []⟩
        ⟨"cash", "NL10", "USD", 100, Option.none, "", "id-1", "2025-01-01T10:00:00"⟩).2
        ⟨"cash", "NL10", "USD", 100, Option.none, "", "id-2", "2025-01-01T11:00:00"⟩ =
      (2, (cmd_start ⟨Option.none, []⟩
        ⟨"cash", "NL10", "USD", 100, Option.none, "", "id-1", "2025-01-01T10:00:00"⟩).2) :=
  (cmd_start_already_active ⟨Option.none, []⟩
      ⟨"cash", "NL10", "USD", 100, Option.none, "", "id-1", "2025-01-01T10:00:00"⟩
      ⟨"cash", "NL10", "USD", 100, Option.none, "", "id-2", "2025-01-01T11:00:00"⟩).2 rfl

theorem pyround_intCast (k : ℤ) : pyround (k : ℚ) = k := by
  unfold pyround
  rw [Int.floor_intCast]
  norm_num

theorem pyround_sixty (k : ℤ) : pyround (((60 * k : ℤ) : ℚ) / 60) = k := by
  have h : ((60 * k : ℤ) : ℚ) / 60 = (k : ℚ) := by push_cast; ring
  rw [h, pyround_intCast]

/-- C8: in one-shot logging with explicit clock times on one date, an
end-of-day time not strictly after the start-of-day time is moved to the same
clock time of the next day, so the stored end is strictly after the start and
the derived duration is positive. -/
theorem cmd_log_times_midnight_roll (dateSecs : ℤ) (sh sm eh em : ℕ)
    (hsh : sh ≤ 23) (hsm : sm ≤ 59) (heh : eh ≤ 23) (hem : em ≤ 59) :
    (cmd_log_times dateSecs sh sm eh em).start_secs <
      (cmd_log_times dateSecs sh sm eh em).end_secs ∧
    0 < (cmd_log_times dateSecs sh sm eh em).dur_min ∧
    (dateSecs + ((eh * 3600 + em * 60 : ℕ) : ℤ) ≤ dateSecs + ((sh * 3600 + sm * 60 : ℕ) : ℤ) →
      (cmd_log_times dateSecs sh sm eh em).end_secs
        = dateSecs + ((eh * 3600 + em * 60 : ℕ) : ℤ) + 86400) := by
  unfold cmd_log_times
  by_cases hroll : dateSecs + ((eh * 3600 + em * 60 : ℕ) : ℤ) ≤
      dateSecs + ((sh * 3600 + sm * 60 : ℕ) : ℤ)
  · simp only [if_pos hroll]
    have hdiff : dateSecs + ((eh * 3600 + em * 60 : ℕ) : ℤ) + 86400 -
          (dateSecs + ((sh * 3600 + sm * 60 : ℕ) : ℤ))
        = 60 * (((eh : ℤ) * 60 + em) + 1440 - ((sh : ℤ) * 60 + sm)) := by
      push_cast
      ring
    have hk : 1 ≤ ((eh : ℤ) * 60 + em) + 1440 - ((sh : ℤ) * 60 + sm) := by omega
    refine ⟨by omega, ?_, ?_⟩
    · show 0 < max (pyround _) 0
      rw [hdiff, pyround_sixty]
      exact lt_of_lt_of_le hk (le_max_left _ _)
    · intro hc
      trivial
  · simp only [if_neg hroll]
    have hlt : dateSecs + ((sh * 3600 + sm * 60 : ℕ) : ℤ) <
        dateSecs + ((eh * 3600 + em * 60 : ℕ) : ℤ) := by omega
    have hdiff : dateSecs + ((eh * 3600 + em * 60 : ℕ) : ℤ) -
          (dateSecs + ((sh * 3600 + sm * 60 : ℕ) : ℤ))
        = 60 * (((eh : ℤ) * 60 + em) - ((sh : ℤ) * 60 + sm)) := by
      push_cast
      ring
    have hk : 1 ≤ ((eh : ℤ) * 60 + em) - ((sh : ℤ) * 60 + sm) := by omega
    refine ⟨hlt, ?_, fun hcon => absurd hcon hroll⟩
    show 0 < max (pyround _) 0
    rw [hdiff, pyround_sixty]
    exact lt_of_lt_of_le hk (le_max_left _ _)

/-- Witness for C8: a 23:00 start with an 01:00 end rolls the end into the
next day; both the strict ordering and the positive duration hold. -/
theorem cmd_log_times_midnight_roll_witness :
    (cmd_log_times 0 23 0 1 0).start_secs < (cmd_log_times 0 23 0 1 0).end_secs ∧
    0 < (cmd_log_times 0 23 0 1 0).dur_min ∧
    ((0 : ℤ) + ((1 * 3600 + 0 * 60 : ℕ) : ℤ) ≤ (0 : ℤ) + ((23 * 3600 + 0 * 60 : ℕ) : ℤ) →
      (cmd_log_times 0 23 0 1 0).end_secs = (0 : ℤ) + ((1 * 3600 + 0 * 60 : ℕ) : ℤ) + 86400) :=
  cmd_log_times_midnight_roll 0 23 0 1 0 (by norm_num) (by norm_num) (by norm_num) (by norm_num)

theorem profitStep_bb_value (fmt : String) (t : Session) :
    (profitStep fmt t).bb_value = t.bb_value := by
  rcases profitStep_shape fmt t with h1 | ⟨q, h1⟩ <;> rw [h1]

theorem profitStep_hands (fmt : String) (t : Session) :
    (profitStep fmt t).hands = t.hands := by
  rcases profitStep_shape fmt t with h1 | ⟨q, h1⟩ <;> rw [h1]

theorem profitStep_buyin_total (fmt : String) (t : Session) :
    (profitStep fmt t).buyin_total = t.buyin_total := by
  rcases profitStep_shape fmt t with h1 | ⟨q, h1⟩ <;> rw [h1]

theorem cashStep_profit_proj (fmt : String) (t : Session) :
    (cashStep fmt t).profit = t.profit := by
  rcases cashStep_shape fmt t with h1 | ⟨q, h1⟩ | ⟨q, w, h1⟩ <;> rw [h1]

theorem cashStep_buyin_total (fmt : String) (t : Session) :
    (cashStep fmt t).buyin_total = t.buyin_total := by
  rcases cashStep_shape fmt t with h1 | ⟨q, h1⟩ | ⟨q, w, h1⟩ <;> rw [h1]

theorem roiStep_profit_proj (fmt : String) (t : Session) :
    (roiStep fmt t).profit = t.profit := by
  rcases roiStep_shape fmt t with h1 | ⟨q, h1⟩ <;> rw [h1]

theorem roiStep_bb_profit (fmt : String) (t : Session) :
    (roiStep fmt t).bb_profit = t.bb_profit := by
  rcases roiStep_shape fmt t with h1 | ⟨q, h1⟩ <;> rw [h1]

theorem roiStep_bb_per_100 (fmt : String) (t : Session) :
    (roiStep fmt t).bb_per_100 = t.bb_per_100 := by
  rcases roiStep_shape fmt t with h1 | ⟨q, h1⟩ <;> rw [h1]

theorem normalizeStep_profit (t : Session) (cur : Val) :
    (normalizeStep t cur).profit = t.profit := rfl

theorem normalizeStep_bb_profit (t : Session) (cur : Val) :
    (normalizeStep t cur).bb_profit = t.bb_profit.nrm := rfl

theorem normalizeStep_bb_per_100 (t : Session) (cur : Val) :
    (normalizeStep t cur).bb_per_100 = t.bb_per_100.nrm := rfl

theorem cashStep_bb_profit_val (t : Session) (pr bb : ℚ)
    (hpr : _to_float t.profit = .some pr) (hbb : _to_float t.bb_value = .some bb)
    (hpos : 0 < bb) :
    (cashStep "cash" t).bb_profit = Val.num (round2 (pr / bb)) := by
  unfold cashStep
  rw [if_pos rfl, hpr, hbb]
  cases _to_int t.hands
  · simp [hpos]
  · simp only [hpos, if_pos]
    split
    · rfl
    · rfl

theorem cashStep_bb100_val (t : Session) (pr bb : ℚ) (h2 : ℤ)
    (hpr : _to_float t.profit = .some pr) (hbb : _to_float t.bb_value = .some bb)
    (hpos : 0 < bb) (hh : _to_int t.hands = .some h2) (hhpos : 0 < h2) :
    (cashStep "cash" t).bb_per_100 = Val.num (round2 (pr / bb / (h2 : ℚ) * 100)) := by
  rw [cashStep_full t pr bb h2 hpr hbb hpos hh hhpos]

theorem to_float_eval (s : String) (p : FloatParts) (q : ℚ)
    (hs : s ≠ "") (hparse : pyFloatParts (commaToDot s).data = .some p)
    (hval : ratOfParts p = q) : _to_float (.str s) = .some q := by
  simp [_to_float, hs, pyFloat, hparse, hval]

/-- C1: the profit rule of the Metrics Engine.  For mtt/spin with both totals
present, profit is `round(prize - buyin, 2)` regardless of the bankroll
fields; otherwise, with both bankroll figures present, it is
`round(end - start, 2)`; otherwise it stays absent. -/
theorem compute_metrics_profit_rule (s r : Session) (f : String)
    (h : compute_metrics s = .some r) (hf : fmtLowerGet s.format = .some f) :
    ((f = "mtt" ∨ f = "spin") → ∀ b p : ℚ, _to_float s.buyin_total = .some b →
        _to_float s.prize_total = .some p → r.profit = Val.num (round2 (p - b))) ∧
    (¬((f = "mtt" ∨ f = "spin") ∧ (_to_float s.buyin_total).isSome ∧
        (_to_float s.prize_total).isSome) →
      (∀ a c : ℚ, _to_float s.bankroll_start = .some a → _to_float s.bankroll_end = .some c →
        r.profit = Val.num (round2 (c - a))) ∧
      ((_to_float s.bankroll_start = .none ∨ _to_float s.bankroll_end = .none) →
        s.profit.absent → r.profit.absent)) := by
  obtain ⟨f0, s1, hf0, hd, hr⟩ := compute_metrics_parts s r h
  have hfe : f0 = f := Option.some.inj (hf0.symm.trans hf)
  subst hfe
  obtain ⟨_, _, _, hbs, hbe, hbuy, hpz, _, _, hpf, _⟩ := durationStep_keep s s1 hd
  have hprof : r.profit = (profitStep f0 s1).profit := by
    rw [hr, normalizeStep_profit, roiStep_profit_proj, cashStep_profit_proj]
  constructor
  · intro hc b p hb hp
    rw [hprof, profitStep_mtt f0 s1 b p hc (by rw [hbuy]; exact hb) (by rw [hpz]; exact hp)]
  · intro hnc
    have hn : mttTotals f0 s1 = .none := mttTotals_none f0 s1 (by rw [hbuy, hpz]; exact hnc)
    constructor
    · intro a c ha hc2
      rw [hprof, profitStep_bank f0 s1 a c hn (by rw [hbs]; exact ha) (by rw [hbe]; exact hc2)]
    · intro hno habs
      have hid : profitStep f0 s1 = s1 := profitStep_id f0 s1 hn (by rw [hbs, hbe]; exact hno)
      rw [hprof, hid, hpf]
      exact habs

/-- A one-shot mtt record as it stands right before metric computation:
buy-in 10, prize 25, nothing else numeric. -/
def exMtt : Session :=
  ⟨.str "x", .str "PokerOK", .str "mtt", .str "5", .str "", .str "", .str "", .str "",
   .str "", .str "", .str "", .str "", .str "", .str "", .str "", .str "", .str "",
   .str "10", .str "25", .str ""⟩

/-- Witness for C1 (the spec's Scenario 2): the mtt record with buy-in 10 and
prize 25 gets `profit = round(25 - 10, 2)`. -/
theorem compute_metrics_profit_rule_witness :
    ∃ r, compute_metrics exMtt = .some r ∧ r.profit = Val.num (round2 (25 - 10)) := by
  have hb : _to_float (Val.str "10") = .some 10 :=
    to_float_eval "10" ⟨false, [1, 0], [], 0⟩ 10 (by decide) (by decide)
      (by norm_num [ratOfParts, digitsToNat])
  have hp : _to_float (Val.str "25") = .some 25 :=
    to_float_eval "25" ⟨false, [2, 5], [], 0⟩ 25 (by decide) (by decide)
      (by norm_num [ratOfParts, digitsToNat])
  have hcm : compute_metrics exMtt = .some (normalizeStep
      (roiStep "mtt" (cashStep "mtt" (profitStep "mtt" exMtt))) (curNorm exMtt.currency)) := by
    unfold compute_metrics
    rw [show fmtLowerGet exMtt.format = .some "mtt" from by decide]
    rw [show durationStep exMtt = .some exMtt from by simp [durationStep, exMtt, Val.truthy]]
    rfl
  exact ⟨_, hcm, (compute_metrics_profit_rule exMtt _ "mtt" hcm (by decide)).1
    (Or.inl rfl) 10 25 (by rw [show exMtt.buyin_total = Val.str "10" from rfl]; exact hb)
    (by rw [show exMtt.prize_total = Val.str "25" from rfl]; exact hp)⟩

theorem profitStep_bb_profit (fmt : String) (t : Session) :
    (profitStep fmt t).bb_profit = t.bb_profit := by
  rcases profitStep_shape fmt t with h1 | ⟨q, h1⟩ <;> rw [h1]

theorem profitStep_bb_per_100 (fmt : String) (t : Session) :
    (profitStep fmt t).bb_per_100 = t.bb_per_100 := by
  rcases profitStep_shape fmt t with h1 | ⟨q, h1⟩ <;> rw [h1]

theorem cashStep_bb100_keep (fmt : String) (t : Session)
    (hh : _to_int t.hands = .none ∨ _to_int t.hands = .some 0) :
    (cashStep fmt t).bb_per_100 = t.bb_per_100 := by
  by_cases hf : fmt = "cash"
  · subst hf
    cases h1 : _to_float t.profit with
    | none => rw [cashStep_off t (Or.inl h1)]
    | some pr =>
      cases h2 : _to_float t.bb_value with
      | none => rw [cashStep_off t (Or.inr (Or.inl h2))]
      | some bb =>
        by_cases hpos : 0 < bb
        · have hcase : _to_int t.hands = .none ∨
              ∃ h2 : ℤ, _to_int t.hands = .some h2 ∧ ¬0 < h2 := by
            rcases hh with hh | hh
            · exact Or.inl hh
            · exact Or.inr ⟨0, hh, by norm_num⟩
          rw [cashStep_noHands t pr bb h1 h2 hpos hcase]
        · rw [cashStep_off t (Or.inr (Or.inr ⟨bb, h2, hpos⟩))]
  · rw [cashStep_notCash fmt t hf]

/-- A one-shot cash record right before metric computation: bankroll 0 → 1,
1 hand, bb_value 3 — chosen so that `profit / bb_value` rounds differently
before and after the division by hands. -/
def exCash : Session :=
  ⟨.str "x", .str "PokerOK", .str "cash", .str "NL10", .str "", .str "", .str "", .str "",
   .str "0", .str "1", .str "", .str "", .str "", .str "1", .str "3", .str "", .str "",
   .str "", .str "", .str ""⟩

theorem exCash_eval :
    compute_metrics exCash = .some (normalizeStep
      (roiStep "cash" (cashStep "cash" (profitStep "cash" exCash))) (curNorm exCash.currency)) ∧
    roiStep "cash" (cashStep "cash" (profitStep "cash" exCash)) =
      { exCash with profit := Val.num 1, bb_profit := Val.num (round2 (1 / 3)),
                    bb_per_100 := Val.num (round2 (100 / 3)) } := by
  have h0 : _to_float (Val.str "0") = .some 0 :=
    to_float_eval "0" ⟨false, [0], [], 0⟩ 0 (by decide) (by decide)
      (by norm_num [ratOfParts, digitsToNat])
  have h1 : _to_float (Val.str "1") = .some 1 :=
    to_float_eval "1" ⟨false, [1], [], 0⟩ 1 (by decide) (by decide)
      (by norm_num [ratOfParts, digitsToNat])
  have h3 : _to_float (Val.str "3") = .some 3 :=
    to_float_eval "3" ⟨false, [3], [], 0⟩ 3 (by decide) (by decide)
      (by norm_num [ratOfParts, digitsToNat])
  have hps : profitStep "cash" exCash = { exCash with profit := Val.num 1 } := by
    have hn : mttTotals "cash" exCash = .none := by
      apply mttTotals_none
      simp
    rw [profitStep_bank "cash" exCash 0 1 hn
      (by rw [show exCash.bankroll_start = Val.str "0" from rfl]; exact h0)
      (by rw [show exCash.bankroll_end = Val.str "1" from rfl]; exact h1)]
    rw [show round2 ((1 : ℚ) - 0) = 1 from by norm_num [round2, pyround, Int.fract]]
  have hh1 : _to_int ({ exCash with profit := Val.num 1 } : Session).hands = .some 1 := by
    rw [show ({ exCash with profit := Val.num 1 } : Session).hands = Val.str "1" from rfl]
    rw [_to_int, h1]
    norm_num [qtrunc]
  have hcs : cashStep "cash" { exCash with profit := Val.num 1 } =
      { exCash with profit := Val.num 1, bb_profit := Val.num (round2 (1 / 3)),
                    bb_per_100 := Val.num (round2 (100 / 3)) } := by
    rw [cashStep_full { exCash with profit := Val.num 1 } 1 3 1 rfl
      (by rw [show ({ exCash with profit := Val.num 1 } : Session).bb_value = Val.str "3" from rfl]
          exact h3)
      (by norm_num) hh1 (by norm_num)]
    rw [show (1 : ℚ) / 3 = 1 / 3 from rfl,
        show (1 : ℚ) / 3 / ((1 : ℤ) : ℚ) * 100 = 100 / 3 from by push_cast; ring]
  constructor
  · unfold compute_metrics
    rw [show fmtLowerGet exCash.format = .some "cash" from by decide]
    rw [show durationStep exCash = .some exCash from by simp [durationStep, exCash, Val.truthy]]
    rfl
  · rw [hps, hcs, roiStep_notMtt _ _ (by decide)]

/-- Counterexample for C2: on the cash record with profit 1, bb_value 3 and
1 hand, the code stores `bb_per_100 = round((profit/bb_value / hands) * 100, 2)
= 33.33` from the unrounded quotient, while the claim's formula
`round((bb_profit / hands) * 100, 2)` — with `bb_profit` the rounded stored
field 0.33 — gives 33.00. -/
theorem compute_metrics_bb100_rounding_counterexample :
    ∃ r, compute_metrics exCash = .some r ∧
      r.bb_profit = Val.num (round2 (1 / 3)) ∧
      r.bb_per_100 = Val.num (round2 (100 / 3)) ∧
      round2 (100 / 3) ≠ round2 (round2 (1 / 3) / 1 * 100) := by
  obtain ⟨hcm, hX⟩ := exCash_eval
  refine ⟨_, hcm, ?_, ?_, ?_⟩
  · rw [normalizeStep_bb_profit, hX]
    rfl
  · rw [normalizeStep_bb_per_100, hX]
    rfl
  · have ha : round2 (100 / 3) = 3333 / 100 := by norm_num [round2, pyround, Int.fract]
    have hb : round2 (1 / 3) = 33 / 100 := by norm_num [round2, pyround, Int.fract]
    rw [ha, hb]
    norm_num [round2, pyround, Int.fract]

/-- C2 (amended): for a cash session with derived profit present and a
positive `bb_value`, the engine stores `bb_profit = round(profit/bb_value, 2)`
and, with positive `hands`, `bb_per_100 = round((profit/bb_value / hands) *
100, 2)` — computed from the unrounded quotient `profit/bb_value`, not from
the rounded `bb_profit` field. -/
theorem compute_metrics_cash_bb_rule (s r : Session) (pr bb : ℚ)
    (h : compute_metrics s = .some r) (hf : fmtLowerGet s.format = .some "cash")
    (hpr : _to_float r.profit = .some pr)
    (hbb : _to_float s.bb_value = .some bb) (hpos : 0 < bb) :
    r.bb_profit = Val.num (round2 (pr / bb)) ∧
    (∀ h2 : ℤ, _to_int s.hands = .some h2 → 0 < h2 →
      r.bb_per_100 = Val.num (round2 (pr / bb / (h2 : ℚ) * 100))) := by
  obtain ⟨f0, s1, hf0, hd, hr⟩ := compute_metrics_parts s r h
  have hfe : f0 = "cash" := Option.some.inj (hf0.symm.trans hf)
  subst hfe
  obtain ⟨_, _, _, _, _, _, _, hhd, hbv, _⟩ := durationStep_keep s s1 hd
  have hprof : r.profit = (profitStep "cash" s1).profit := by
    rw [hr, normalizeStep_profit, roiStep_profit_proj, cashStep_profit_proj]
  have hread_pr : _to_float (profitStep "cash" s1).profit = .some pr := by
    rw [← hprof]
    exact hpr
  have hread_bb : _to_float (profitStep "cash" s1).bb_value = .some bb := by
    rw [profitStep_bb_value, hbv]
    exact hbb
  constructor
  · have hc : r.bb_profit = (cashStep "cash" (profitStep "cash" s1)).bb_profit.nrm := by
      rw [hr, normalizeStep_bb_profit, roiStep_bb_profit]
    rw [hc, cashStep_bb_profit_val _ pr bb hread_pr hread_bb hpos]
    rfl
  · intro h2 hh hhpos
    have hread_h : _to_int (profitStep "cash" s1).hands = .some h2 := by
      rw [profitStep_hands, hhd]
      exact hh
    have hc : r.bb_per_100 = (cashStep "cash" (profitStep "cash" s1)).bb_per_100.nrm := by
      rw [hr, normalizeStep_bb_per_100, roiStep_bb_per_100]
    rw [hc, cashStep_bb100_val _ pr bb h2 hread_pr hread_bb hpos hread_h hhpos]
    rfl

/-- Witness for the amended C2 on the concrete cash record: profit 1,
bb_value 3, 1 hand. -/
theorem compute_metrics_cash_bb_rule_witness :
    ∃ r, compute_metrics exCash = .some r ∧
      r.bb_profit = Val.num (round2 (1 / 3)) ∧
      r.bb_per_100 = Val.num (round2 (1 / 3 / ((1 : ℤ) : ℚ) * 100)) := by
  obtain ⟨hcm, hX⟩ := exCash_eval
  have h3 : _to_float (Val.str "3") = .some 3 :=
    to_float_eval "3" ⟨false, [3], [], 0⟩ 3 (by decide) (by decide)
      (by norm_num [ratOfParts, digitsToNat])
  have hpr : _to_float (normalizeStep
      (roiStep "cash" (cashStep "cash" (profitStep "cash" exCash)))
      (curNorm exCash.currency)).profit = .some 1 := by
    rw [normalizeStep_profit, hX]
    rfl
  have hh1 : _to_int exCash.hands = .some 1 := by
    have h1 : _to_float (Val.str "1") = .some 1 :=
      to_float_eval "1" ⟨false, [1], [], 0⟩ 1 (by decide) (by decide)
        (by norm_num [ratOfParts, digitsToNat])
    rw [show exCash.hands = Val.str "1" from rfl, _to_int, h1]
    norm_num [qtrunc]
  have hmain := compute_metrics_cash_bb_rule exCash _ 1 3 hcm (by decide) hpr
    (by rw [show exCash.bb_value = Val.str "3" from rfl]; exact h3) (by norm_num)
  exact ⟨_, hcm, hmain.1, hmain.2 1 hh1 (by norm_num)⟩

/-- C6: for a cash session, a zero or absent `bb_value` leaves `bb_profit`
and `bb_per_100` absent (empty, never zero) and no division is attempted;
likewise a zero or absent `hands` leaves `bb_per_100` absent. -/
theorem compute_metrics_cash_guards (s r : Session)
    (h : compute_metrics s = .some r) (hf : fmtLowerGet s.format = .some "cash") :
    ((_to_float s.bb_value = .none ∨ _to_float s.bb_value = .some 0) →
      (s.bb_profit.absent → r.bb_profit = Val.str "") ∧
      (s.bb_per_100.absent → r.bb_per_100 = Val.str "")) ∧
    ((_to_int s.hands = .none ∨ _to_int s.hands = .some 0) →
      s.bb_per_100.absent → r.bb_per_100 = Val.str "") := by
  obtain ⟨f0, s1, hf0, hd, hr⟩ := compute_metrics_parts s r h
  have hfe : f0 = "cash" := Option.some.inj (hf0.symm.trans hf)
  subst hfe
  obtain ⟨_, _, _, _, _, _, _, hhd, hbv, _, hbp, hb100, _⟩ := durationStep_keep s s1 hd
  constructor
  · intro hz
    have hoff : cashStep "cash" (profitStep "cash" s1) = profitStep "cash" s1 := by
      apply cashStep_off
      rcases hz with hz | hz
      · exact Or.inr (Or.inl (by rw [profitStep_bb_value, hbv]; exact hz))
      · exact Or.inr (Or.inr ⟨0, by rw [profitStep_bb_value, hbv]; exact hz, by norm_num⟩)
    constructor
    · intro habs
      rw [hr, normalizeStep_bb_profit, roiStep_bb_profit, hoff, profitStep_bb_profit, hbp,
        nrm_absent _ habs]
    · intro habs
      rw [hr, normalizeStep_bb_per_100, roiStep_bb_per_100, hoff, profitStep_bb_per_100, hb100,
        nrm_absent _ habs]
  · intro hz habs
    have hkeep : (cashStep "cash" (profitStep "cash" s1)).bb_per_100 =
        (profitStep "cash" s1).bb_per_100 := by
      apply cashStep_bb100_keep
      rcases hz with hz | hz
      · exact Or.inl (by rw [profitStep_hands, hhd]; exact hz)
      · exact Or.inr (by rw [profitStep_hands, hhd]; exact hz)
    rw [hr, normalizeStep_bb_per_100, roiStep_bb_per_100, hkeep, profitStep_bb_per_100, hb100,
      nrm_absent _ habs]

/-- A cash record whose bb_value came in as the literal string "0" and whose
hands entry is empty. -/
def exCashZ : Session :=
  ⟨.str "x", .str "PokerOK", .str "cash", .str "NL10", .str "", .str "", .str "", .str "",
   .str "0", .str "1", .str "", .str "", .str "", .str "", .str "0", .str "", .str "",
   .str "", .str "", .str ""⟩

/-- Witness for C6: with `bb_value = "0"` and no hands, both bb metrics stay
empty. -/
theorem compute_metrics_cash_guards_witness :
    ∃ r, compute_metrics exCashZ = .some r ∧ r.bb_profit = Val.str "" ∧
      r.bb_per_100 = Val.str "" := by
  have hcm : compute_metrics exCashZ = .some (normalizeStep
      (roiStep "cash" (cashStep "cash" (profitStep "cash" exCashZ)))
      (curNorm exCashZ.currency)) := by
    unfold compute_metrics
    rw [show fmtLowerGet exCashZ.format = .some "cash" from by decide]
    rw [show durationStep exCashZ = .some exCashZ from by
      simp [durationStep, exCashZ, Val.truthy]]
    rfl
  have h0 : _to_float (Val.str "0") = .some 0 :=
    to_float_eval "0" ⟨false, [0], [], 0⟩ 0 (by decide) (by decide)
      (by norm_num [ratOfParts, digitsToNat])
  have hmain := compute_metrics_cash_guards exCashZ _ hcm (by decide)
  have hz : _to_float exCashZ.bb_value = .some 0 := by
    rw [show exCashZ.bb_value = Val.str "0" from rfl]
    exact h0
  exact ⟨_, hcm, (hmain.1 (Or.inr hz)).1 (Or.inr rfl), (hmain.1 (Or.inr hz)).2 (Or.inr rfl)⟩

theorem endCashMut_keep (fmt : String) (i : EndInputs) (a : Session) :
    (endCashMut fmt i a).note = a.note ∧ (endCashMut fmt i a).start_ts = a.start_ts := by
  unfold endCashMut
  by_cases hf : fmt = "cash"
  · rw [if_pos hf]
    rcases i.hands with _ | h <;> rcases i.bb_value with _ | bb
    · exact ⟨rfl, rfl⟩
    · by_cases hbb : bb = 0 <;> simp [hbb]
    · exact ⟨rfl, rfl⟩
    · by_cases hbb : bb = 0 <;> simp [hbb]
  · rw [if_neg hf]
    exact ⟨rfl, rfl⟩

theorem endMttMut_keep (fmt : String) (i : EndInputs) (a : Session) :
    (endMttMut fmt i a).note = a.note ∧ (endMttMut fmt i a).start_ts = a.start_ts := by
  unfold endMttMut
  split
  · cases i.mtt_totals with
    | none => exact ⟨rfl, rfl⟩
    | some bp =>
      obtain ⟨b, p⟩ := bp
      exact ⟨rfl, rfl⟩
  · exact ⟨rfl, rfl⟩

theorem endNoteMut_some (i : EndInputs) (a : Session) (nb : String) (hn : a.note = Val.str nb) :
    ∃ a3, endNoteMut i a = .some a3 ∧ a3.start_ts = a.start_ts := by
  unfold endNoteMut
  split
  · exact ⟨a, rfl, rfl⟩
  · rw [hn]
    exact ⟨_, rfl, rfl⟩

theorem endStamp_start_ts (i : EndInputs) (a : Session) :
    (endStamp i a).start_ts = a.start_ts := rfl

theorem cmd_end_reduces (st : TrackerState) (i : EndInputs) (d : Session) (f : String)
    (a3 : Session)
    (hact : st.active = .some d) (hfmt : fmtLowerOr d.format = .some f)
    (hn : endNoteMut i (endMttMut f i (endCashMut f i d)) = .some a3) :
    cmd_end st i =
      if chronoBad i (endStamp i a3) then .some (2, st)
      else (compute_metrics (endStamp i a3)).bind fun sess =>
        .some (0, ⟨Option.none, st.rows ++ [sess]⟩) := by
  unfold cmd_end
  rw [hact]
  simp only [hfmt, hn, Option.bind_eq_bind, Option.some_bind, bind, pure]

/-- C4: when the computed end stamp is not strictly after the draft's
parseable start stamp, `cmd_end` aborts with status 2 (`InvalidTimeRange`):
the persisted draft is untouched and nothing is appended to the rows, so the
operator can correct and retry. -/
theorem cmd_end_invalid_time_range (st : TrackerState) (i : EndInputs) (d : Session)
    (f nb sts : String) (e t : ℤ)
    (hact : st.active = .some d)
    (hfmt : d.format = Val.str f) (hnote : d.note = Val.str nb)
    (hstart : d.start_ts = Val.str sts)
    (ht : dt_from_iso sts = .some t) (he : dt_from_iso i.now = .some e)
    (hle : e ≤ t) :
    cmd_end st i = .some (2, st) := by
  have hfl : fmtLowerOr d.format = .some (strLower f) := by rw [hfmt]; rfl
  have hn2 : (endMttMut (strLower f) i (endCashMut (strLower f) i d)).note = Val.str nb := by
    rw [(endMttMut_keep _ i _).1, (endCashMut_keep _ i d).1, hnote]
  obtain ⟨a3, ha3, hst3⟩ := endNoteMut_some i _ nb hn2
  have hst : a3.start_ts = Val.str sts := by
    rw [hst3, (endMttMut_keep _ i _).2, (endCashMut_keep _ i d).2, hstart]
  rw [cmd_end_reduces st i d (strLower f) a3 hact hfl ha3]
  have hbad : chronoBad i (endStamp i a3) = true := by
    unfold chronoBad
    simp only [endStamp_start_ts, hst, he, ht]
    exact decide_eq_true hle
  rw [if_pos hbad]

/-- A freshly started cash draft whose start stamp is 2025-01-01 10:00:00. -/
def exDraft : Session :=
  ⟨.str "d1", .str "PokerOK", .str "cash", .str "NL10", .str "", .str "2025-01-01T10:00:00",
   .str "", .str "", .num 100, .str "", .str "", .str "", .str "", .str "", .str "", .str "",
   .str "", .str "", .str "", .str ""⟩

/-- Finalization inputs whose end stamp equals the draft's start stamp. -/
def exEndSameTime : EndInputs :=
  ⟨120, Option.none, Option.none, Option.none, "", "2025-01-01T10:00:00"⟩

/-- Witness for C4: ending at exactly the start instant aborts with status 2
and leaves the state unchanged. -/
theorem cmd_end_invalid_time_range_witness :
    cmd_end ⟨.some exDraft, []⟩ exEndSameTime = .some (2, ⟨.some exDraft, []⟩) :=
  cmd_end_invalid_time_range ⟨.some exDraft, []⟩ exEndSameTime exDraft "cash" ""
    "2025-01-01T10:00:00" 1735725600 1735725600 rfl rfl rfl rfl (by decide) (by decide)
    le_rfl

/-- C10 (amended): when the draft's stored start stamp does not parse, the
`end <= start` validation is skipped and no `InvalidTimeRange` abort can
happen; finalization either completes (appending the computed record and
clearing the draft) — which is what happens for an empty start stamp — or,
for a nonempty unparseable start stamp, dies later in metric computation on
the uncaught duration parse error, with nothing persisted. -/
theorem cmd_end_unparseable_start (st : TrackerState) (i : EndInputs) (d : Session)
    (f nb sts : String)
    (hact : st.active = .some d) (hfmt : d.format = Val.str f) (hnote : d.note = Val.str nb)
    (hstart : d.start_ts = Val.str sts) (hbad : dt_from_iso sts = .none) :
    cmd_end st i = .none ∨
    ∃ sess, cmd_end st i = .some (0, ⟨Option.none, st.rows ++ [sess]⟩) := by
  have hfl : fmtLowerOr d.format = .some (strLower f) := by rw [hfmt]; rfl
  have hn2 : (endMttMut (strLower f) i (endCashMut (strLower f) i d)).note = Val.str nb := by
    rw [(endMttMut_keep _ i _).1, (endCashMut_keep _ i d).1, hnote]
  obtain ⟨a3, ha3, hst3⟩ := endNoteMut_some i _ nb hn2
  have hst : a3.start_ts = Val.str sts := by
    rw [hst3, (endMttMut_keep _ i _).2, (endCashMut_keep _ i d).2, hstart]
  rw [cmd_end_reduces st i d (strLower f) a3 hact hfl ha3]
  have hok : chronoBad i (endStamp i a3) = false := by
    unfold chronoBad
    cases hnow : dt_from_iso i.now with
    | none => simp only [endStamp_start_ts, hst]
    | some e => simp only [endStamp_start_ts, hst, hbad]
  rw [if_neg (by rw [hok]; exact Bool.false_ne_true)]
  cases hcm : compute_metrics (endStamp i a3) with
  | none => exact Or.inl rfl
  | some sess => exact Or.inr ⟨sess, rfl⟩

/-- A draft whose stored start stamp is unparseable garbage. -/
def exDraftGarbage : Session :=
  ⟨.str "d2", .str "PokerOK", .str "cash", .str "NL10", .str "", .str "garbage",
   .str "", .str "", .num 100, .str "", .str "", .str "", .str "", .str "", .str "", .str "",
   .str "", .str "", .str "", .str ""⟩

/-- Plain finalization inputs ending at 2025-01-01 12:00:00. -/
def exEndPlain : EndInputs :=
  ⟨120, Option.none, Option.none, Option.none, "", "2025-01-01T12:00:00"⟩

/-- Counterexample for C10: with the nonempty unparseable start stamp
"garbage" the chronological check is indeed skipped, but finalization does
not proceed — metric computation raises on the unparseable stamp while
deriving the duration, so the whole command dies with an uncaught error
(no record appended, draft file untouched). -/
theorem cmd_end_unparseable_start_counterexample :
    cmd_end ⟨.some exDraftGarbage, []⟩ exEndPlain = Option.none := by decide

/-- A draft whose stored start stamp is the empty string. -/
def exDraftEmptyStart : Session :=
  ⟨.str "d3", .str "PokerOK", .str "cash", .str "NL10", .str "", .str "",
   .str "", .str "", .num 100, .str "", .str "", .str "", .str "", .str "", .str "", .str "",
   .str "", .str "", .str "", .str ""⟩

/-- Witness for the amended C10 at the empty (hence unparseable) start stamp. -/
theorem cmd_end_unparseable_start_witness :
    cmd_end ⟨.some exDraftEmptyStart, []⟩ exEndPlain = .none ∨
    ∃ sess, cmd_end ⟨.some exDraftEmptyStart, []⟩ exEndPlain =
      .some (0, ⟨Option.none, ([] : List Session) ++ [sess]⟩) :=
  cmd_end_unparseable_start ⟨.some exDraftEmptyStart, []⟩ exEndPlain exDraftEmptyStart
    "cash" "" "" rfl rfl rfl rfl (by decide)

theorem aggStep_mtt (ag : FormatAggs) (r : Session) :
    (aggStep ag r).mtt.buyin = ag.mtt.buyin +
      (if rowFmt r = "mtt" then orQ (_to_float r.buyin_total) else 0) ∧
    (aggStep ag r).mtt.prize = ag.mtt.prize +
      (if rowFmt r = "mtt" then orQ (_to_float r.prize_total) else 0) := by
  unfold aggStep
  by_cases h : rowFmt r = "mtt"
  · simp [h, Agg.bump]
  · by_cases h2 : rowFmt r = "cash"
    · simp [h, h2, Agg.bump]
    · by_cases h3 : rowFmt r = "spin" <;> simp [h, h2, h3, Agg.bump]

theorem aggStep_spin (ag : FormatAggs) (r : Session) :
    (aggStep ag r).spin.buyin = ag.spin.buyin +
      (if rowFmt r = "spin" then orQ (_to_float r.buyin_total) else 0) ∧
    (aggStep ag r).spin.prize = ag.spin.prize +
      (if rowFmt r = "spin" then orQ (_to_float r.prize_total) else 0) := by
  unfold aggStep
  by_cases h : rowFmt r = "spin"
  · simp [h, Agg.bump]
  · by_cases h2 : rowFmt r = "cash"
    · simp [h, h2, Agg.bump]
    · by_cases h3 : rowFmt r = "mtt" <;> simp [h, h2, h3, Agg.bump]

theorem aggStep_cash (ag : FormatAggs) (r : Session) :
    (aggStep ag r).cash.hands = ag.cash.hands +
      (if rowFmt r = "cash" then orZ (_to_int r.hands) else 0) ∧
    (aggStep ag r).cash.bb_profit = ag.cash.bb_profit +
      (if rowFmt r = "cash" then orQ (_to_float r.bb_profit) else 0) := by
  unfold aggStep
  by_cases h : rowFmt r = "cash"
  · simp [h, Agg.bump]
  · by_cases h2 : rowFmt r = "mtt"
    · simp [h, h2, Agg.bump]
    · by_cases h3 : rowFmt r = "spin" <;> simp [h, h2, h3, Agg.bump]

theorem sumBuyin_cons (f : String) (r : Session) (tl : List Session) :
    sumBuyin f (r :: tl) =
      (if rowFmt r = f then orQ (_to_float r.buyin_total) else 0) + sumBuyin f tl := by
  unfold sumBuyin
  by_cases h : rowFmt r = f <;> simp [h]

theorem sumPrize_cons (f : String) (r : Session) (tl : List Session) :
    sumPrize f (r :: tl) =
      (if rowFmt r = f then orQ (_to_float r.prize_total) else 0) + sumPrize f tl := by
  unfold sumPrize
  by_cases h : rowFmt r = f <;> simp [h]

theorem sumHandsCash_cons (r : Session) (tl : List Session) :
    sumHandsCash (r :: tl) =
      (if rowFmt r = "cash" then orZ (_to_int r.hands) else 0) + sumHandsCash tl := by
  unfold sumHandsCash
  by_cases h : rowFmt r = "cash" <;> simp [h]

theorem sumBbProfitCash_cons (r : Session) (tl : List Session) :
    sumBbProfitCash (r :: tl) =
      (if rowFmt r = "cash" then orQ (_to_float r.bb_profit) else 0) + sumBbProfitCash tl := by
  unfold sumBbProfitCash
  by_cases h : rowFmt r = "cash" <;> simp [h]

theorem foldl_aggStep_sums (l : List Session) (ag : FormatAggs) :
    (l.foldl aggStep ag).mtt.buyin = ag.mtt.buyin + sumBuyin "mtt" l ∧
    (l.foldl aggStep ag).mtt.prize = ag.mtt.prize + sumPrize "mtt" l ∧
    (l.foldl aggStep ag).spin.buyin = ag.spin.buyin + sumBuyin "spin" l ∧
    (l.foldl aggStep ag).spin.prize = ag.spin.prize + sumPrize "spin" l ∧
    (l.foldl aggStep ag).cash.hands = ag.cash.hands + sumHandsCash l ∧
    (l.foldl aggStep ag).cash.bb_profit = ag.cash.bb_profit + sumBbProfitCash l := by
  induction l generalizing ag with
  | nil => simp [sumBuyin, sumPrize, sumHandsCash, sumBbProfitCash]
  | cons r tl ih =>
    simp only [List.foldl_cons]
    obtain ⟨ih1, ih2, ih3, ih4, ih5, ih6⟩ := ih (aggStep ag r)
    refine ⟨?_, ?_, ?_, ?_, ?_, ?_⟩
    · rw [ih1, (aggStep_mtt ag r).1, sumBuyin_cons]
      ring
    · rw [ih2, (aggStep_mtt ag r).2, sumPrize_cons]
      ring
    · rw [ih3, (aggStep_spin ag r).1, sumBuyin_cons]
      ring
    · rw [ih4, (aggStep_spin ag r).2, sumPrize_cons]
      ring
    · rw [ih5, (aggStep_cash ag r).1, sumHandsCash_cons]
      ring
    · rw [ih6, (aggStep_cash ag r).2, sumBbProfitCash_cons]
      ring

theorem aggregate_sums (l : List Session) :
    (aggregate l).mtt.buyin = sumBuyin "mtt" l ∧
    (aggregate l).mtt.prize = sumPrize "mtt" l ∧
    (aggregate l).spin.buyin = sumBuyin "spin" l ∧
    (aggregate l).spin.prize = sumPrize "spin" l ∧
    (aggregate l).cash.hands = sumHandsCash l ∧
    (aggregate l).cash.bb_profit = sumBbProfitCash l := by
  obtain ⟨h1, h2, h3, h4, h5, h6⟩ := foldl_aggStep_sums l ⟨Agg.init, Agg.init, Agg.init⟩
  unfold aggregate
  exact ⟨by rw [h1]; simp [Agg.init], by rw [h2]; simp [Agg.init],
    by rw [h3]; simp [Agg.init], by rw [h4]; simp [Agg.init],
    by rw [h5]; simp [Agg.init], by rw [h6]; simp [Agg.init]⟩

/-- C3: in the per-format breakdown of `cmd_stats`, the mtt/spin ROI is
`((summed prize - summed buyin) / summed buyin) * 100` when the summed buy-in
over the filtered records is positive and absent otherwise, and the cash
bb/100 is `(summed bb_profit / summed hands) * 100` when the summed hands is
positive and absent otherwise — all computed from the summed totals of the
filtered records, not by averaging per-record values. -/
theorem cmd_stats_breakdown_from_totals (rows : List Session) (from_d to_d : Option ℤ)
    (fmt_filter : Option String) :
    (roiOfAgg (aggregate (filterRows rows from_d to_d fmt_filter)).mtt =
      if 0 < sumBuyin "mtt" (filterRows rows from_d to_d fmt_filter) then
        .some ((sumPrize "mtt" (filterRows rows from_d to_d fmt_filter) -
                sumBuyin "mtt" (filterRows rows from_d to_d fmt_filter)) /
               sumBuyin "mtt" (filterRows rows from_d to_d fmt_filter) * 100)
      else .none) ∧
    (roiOfAgg (aggregate (filterRows rows from_d to_d fmt_filter)).spin =
      if 0 < sumBuyin "spin" (filterRows rows from_d to_d fmt_filter) then
        .some ((sumPrize "spin" (filterRows rows from_d to_d fmt_filter) -
                sumBuyin "spin" (filterRows rows from_d to_d fmt_filter)) /
               sumBuyin "spin" (filterRows rows from_d to_d fmt_filter) * 100)
      else .none) ∧
    (bb100OfAgg (aggregate (filterRows rows from_d to_d fmt_filter)).cash =
      if 0 < sumHandsCash (filterRows rows from_d to_d fmt_filter) then
        .some (sumBbProfitCash (filterRows rows from_d to_d fmt_filter) /
               (sumHandsCash (filterRows rows from_d to_d fmt_filter) : ℚ) * 100)
      else .none) := by
  obtain ⟨h1, h2, h3, h4, h5, h6⟩ := aggregate_sums (filterRows rows from_d to_d fmt_filter)
  refine ⟨?_, ?_, ?_⟩
  · unfold roiOfAgg
    rw [h1, h2]
  · unfold roiOfAgg
    rw [h3, h4]
  · unfold bb100OfAgg
    rw [h5, h6]

theorem durationStep_cases (s s1 : Session) (hd : durationStep s = .some s1) :
    (¬(s.duration_min = Val.str "" ∨ s.duration_min = Val.none) ∧ s1 = s) ∨
    ((s.duration_min = Val.str "" ∨ s.duration_min = Val.none) ∧
      ¬(s.start_ts.truthy ∧ s.end_ts.truthy) ∧ s1 = s) ∨
    (∃ m : ℤ, s1 = { s with duration_min := Val.num (m : ℚ) }) := by
  unfold durationStep at hd
  split at hd
  · rename_i hempty
    split at hd
    · rename_i htr
      split at hd
      · split at hd
        · exact Or.inr (Or.inr ⟨_, (Option.some.inj hd).symm⟩)
        · exact absurd hd (by simp)
      · exact absurd hd (by simp)
    · rename_i htr
      exact Or.inr (Or.inl ⟨hempty, htr, (Option.some.inj hd).symm⟩)
  · rename_i hempty
    exact Or.inl ⟨hempty, (Option.some.inj hd).symm⟩

theorem durationStep_again (s s1 r : Session) (hd : durationStep s = .some s1)
    (hdm : r.duration_min = s1.duration_min) (hst : r.start_ts = s.start_ts)
    (het : r.end_ts = s.end_ts) : durationStep r = .some r := by
  rcases durationStep_cases s s1 hd with ⟨hne, hs1⟩ | ⟨hemp, htr, hs1⟩ | ⟨m, hs1⟩
  · subst hs1
    unfold durationStep
    rw [if_neg (by rw [hdm]; exact hne)]
  · subst hs1
    unfold durationStep
    rw [if_pos (by rw [hdm]; exact hemp), if_neg (by rw [hst, het]; exact htr)]
  · unfold durationStep
    rw [if_neg (by rw [hdm, hs1]; simp)]

theorem mttTotals_congr (fmt : String) (t r : Session)
    (hbuy : _to_float r.buyin_total = _to_float t.buyin_total)
    (hpz : _to_float r.prize_total = _to_float t.prize_total) :
    mttTotals fmt r = mttTotals fmt t := by
  unfold mttTotals
  rw [hbuy, hpz]

theorem mttTotals_some_inv (fmt : String) (s : Session) (b p : ℚ)
    (h : mttTotals fmt s = .some (b, p)) :
    (fmt = "mtt" ∨ fmt = "spin") ∧ _to_float s.buyin_total = .some b ∧
      _to_float s.prize_total = .some p := by
  unfold mttTotals at h
  split at h
  · rename_i hc
    cases hb : _to_float s.buyin_total <;> rw [hb] at h
    · simp at h
    · cases hp : _to_float s.prize_total <;> rw [hp] at h
      · simp at h
      · simp at h
        exact ⟨hc, by rw [← h.1], by rw [← h.2]⟩
  · simp at h

theorem profitStep_again (f : String) (t r : Session)
    (hbuy : _to_float r.buyin_total = _to_float t.buyin_total)
    (hpz : _to_float r.prize_total = _to_float t.prize_total)
    (hbs : _to_float r.bankroll_start = _to_float t.bankroll_start)
    (hbe : _to_float r.bankroll_end = _to_float t.bankroll_end)
    (hpf : r.profit = (profitStep f t).profit) :
    profitStep f r = r := by
  cases hm : mttTotals f t with
  | some bp =>
    obtain ⟨b, p⟩ := bp
    obtain ⟨hc, hb, hp⟩ := mttTotals_some_inv f t b p hm
    have hval : (profitStep f t).profit = Val.num (round2 (p - b)) := by
      rw [profitStep_mtt f t b p hc hb hp]
    rw [profitStep_mtt f r b p hc (by rw [hbuy]; exact hb) (by rw [hpz]; exact hp)]
    have he : r.profit = Val.num (round2 (p - b)) := by rw [hpf, hval]
    rw [← he]
  | none =>
    have hmr : mttTotals f r = .none := by rw [mttTotals_congr f t r hbuy hpz]; exact hm
    cases hbs1 : _to_float t.bankroll_start with
    | some a =>
      cases hbe1 : _to_float t.bankroll_end with
      | some c =>
        have hval : (profitStep f t).profit = Val.num (round2 (c - a)) := by
          rw [profitStep_bank f t a c hm hbs1 hbe1]
        rw [profitStep_bank f r a c hmr (by rw [hbs]; exact hbs1) (by rw [hbe]; exact hbe1)]
        have he : r.profit = Val.num (round2 (c - a)) := by rw [hpf, hval]
        rw [← he]
      | none =>
        rw [profitStep_id f r hmr (Or.inr (by rw [hbe]; exact hbe1))]
    | none =>
      rw [profitStep_id f r hmr (Or.inl (by rw [hbs]; exact hbs1))]

theorem cashStep_again (f : String) (t1 r : Session)
    (hpr : _to_float r.profit = _to_float t1.profit)
    (hbb : _to_float r.bb_value = _to_float t1.bb_value)
    (hh : _to_int r.hands = _to_int t1.hands)
    (hbp : r.bb_profit = (cashStep f t1).bb_profit.nrm)
    (hb100 : r.bb_per_100 = (cashStep f t1).bb_per_100.nrm) :
    cashStep f r = r := by
  by_cases hf : f = "cash"
  · subst hf
    cases hp1 : _to_float t1.profit with
    | none => rw [cashStep_off r (Or.inl (by rw [hpr]; exact hp1))]
    | some pr =>
      cases hb1 : _to_float t1.bb_value with
      | none => rw [cashStep_off r (Or.inr (Or.inl (by rw [hbb]; exact hb1)))]
      | some bb =>
        by_cases hpos : 0 < bb
        · cases hh1 : _to_int t1.hands with
          | some h2 =>
            by_cases hhpos : 0 < h2
            · have hcs := cashStep_full t1 pr bb h2 hp1 hb1 hpos hh1 hhpos
              rw [cashStep_full r pr bb h2 (by rw [hpr]; exact hp1) (by rw [hbb]; exact hb1)
                hpos (by rw [hh]; exact hh1) hhpos]
              have e1 : r.bb_profit = Val.num (round2 (pr / bb)) := by
                rw [hbp, hcs]
                rfl
              have e2 : r.bb_per_100 = Val.num (round2 (pr / bb / (h2 : ℚ) * 100)) := by
                rw [hb100, hcs]
                rfl
              rw [← e1, ← e2]
            · have hcs := cashStep_noHands t1 pr bb hp1 hb1 hpos (Or.inr ⟨h2, hh1, hhpos⟩)
              rw [cashStep_noHands r pr bb (by rw [hpr]; exact hp1) (by rw [hbb]; exact hb1)
                hpos (Or.inr ⟨h2, by rw [hh]; exact hh1, hhpos⟩)]
              have e1 : r.bb_profit = Val.num (round2 (pr / bb)) := by
                rw [hbp, hcs]
                rfl
              rw [← e1]
          | none =>
            have hcs := cashStep_noHands t1 pr bb hp1 hb1 hpos (Or.inl hh1)
            rw [cashStep_noHands r pr bb (by rw [hpr]; exact hp1) (by rw [hbb]; exact hb1)
              hpos (Or.inl (by rw [hh]; exact hh1))]
            have e1 : r.bb_profit = Val.num (round2 (pr / bb)) := by
              rw [hbp, hcs]
              rfl
            rw [← e1]
        · rw [cashStep_off r (Or.inr (Or.inr ⟨bb, by rw [hbb]; exact hb1, hpos⟩))]
  · rw [cashStep_notCash f r hf]

theorem roiStep_again (f : String) (t2 r : Session)
    (hb : _to_float r.buyin_total = _to_float t2.buyin_total)
    (hpr : _to_float r.profit = _to_float t2.profit)
    (hroi : r.roi = (roiStep f t2).roi.nrm) :
    roiStep f r = r := by
  by_cases hf : f = "mtt" ∨ f = "spin"
  · cases hb1 : _to_float t2.buyin_total with
    | none => rw [roiStep_off f r (Or.inl (by rw [hb]; exact hb1))]
    | some b =>
      cases hp1 : _to_float t2.profit with
      | none => rw [roiStep_off f r (Or.inr (Or.inl (by rw [hpr]; exact hp1)))]
      | some pr =>
        by_cases hpos : 0 < b
        · have hrs := roiStep_some f t2 b pr hf hb1 hp1 hpos
          rw [roiStep_some f r b pr hf (by rw [hb]; exact hb1) (by rw [hpr]; exact hp1) hpos]
          have e1 : r.roi = Val.num (round2 (pr / b * 100)) := by
            rw [hroi, hrs]
            rfl
          rw [← e1]
        · rw [roiStep_off f r (Or.inr (Or.inr ⟨b, by rw [hb]; exact hb1, hpos⟩))]
  · rw [roiStep_notMtt f r hf]

theorem normalizeStep_again (r : Session) (cur : Val)
    (h1 : r.tables.nrm = r.tables) (h2 : r.hands.nrm = r.hands)
    (h3 : r.bb_value.nrm = r.bb_value) (h4 : r.bb_profit.nrm = r.bb_profit)
    (h5 : r.bb_per_100.nrm = r.bb_per_100) (h6 : r.buyin_total.nrm = r.buyin_total)
    (h7 : r.prize_total.nrm = r.prize_total) (h8 : r.roi.nrm = r.roi)
    (hc : cur = r.currency) :
    normalizeStep r cur = r := by
  unfold normalizeStep
  rw [h1, h2, h3, h4, h5, h6, h7, h8, hc]

/-- C9: the Metrics Engine is idempotent — whenever `compute_metrics`
completes on a record, running it again on the result reproduces the result
exactly (all derived fields and the empty-field normalizations are stable). -/
theorem compute_metrics_idem (s r : Session) (h : compute_metrics s = .some r) :
    compute_metrics r = .some r := by
  obtain ⟨f, s1, hf, hd, hr⟩ := compute_metrics_parts s r h
  obtain ⟨k1, k2, k3, k4, k5, k6, k7, k8, k9, k10, k11, k12, k13, k14, k15, k16, k17, k18,
    k19⟩ := durationStep_keep s s1 hd
  obtain ⟨p1, p2, p3, p4, p5, p6, p7, p8, p9, p10, p11, p12, p13, p14, p15, p16, p17, p18,
    p19⟩ := profitStep_keep f s1
  obtain ⟨c1, c2, c3, c4, c5, c6, c7, c8, c9, c10, c11, c12, c13, c14, c15, c16, c17,
    c18⟩ := cashStep_keep f (profitStep f s1)
  obtain ⟨o1, o2, o3, o4, o5, o6, o7, o8, o9, o10, o11, o12, o13, o14, o15, o16, o17, o18,
    o19⟩ := roiStep_keep f (cashStep f (profitStep f s1))
  obtain ⟨n1, n2, n3, n4, n5, n6, n7, n8, n9, n10, n11, n12, n13, n14, n15, n16, n17, n18,
    n19, n20⟩ := normalizeStep_fields (roiStep f (cashStep f (profitStep f s1)))
      (curNorm s.currency)
  have Rfmt : r.format = s.format := by rw [hr, n1, o1, c1, p1, k1]
  have Rst : r.start_ts = s.start_ts := by rw [hr, n2, o2, c2, p2, k2]
  have Ret : r.end_ts = s.end_ts := by rw [hr, n3, o3, c3, p3, k3]
  have Rdm : r.duration_min = s1.duration_min := by rw [hr, n4, o4, c4, p4]
  have Rbs : r.bankroll_start = s.bankroll_start := by rw [hr, n5, o5, c5, p5, k4]
  have Rbe : r.bankroll_end = s.bankroll_end := by rw [hr, n6, o6, c6, p6, k5]
  have Rbuy : r.buyin_total = s.buyin_total.nrm := by rw [hr, n7, o7, c7, p7, k6]
  have Rpz : r.prize_total = s.prize_total.nrm := by rw [hr, n8, o8, c8, p8, k7]
  have Rh : r.hands = s.hands.nrm := by rw [hr, n9, o9, c9, p9, k8]
  have Rbv : r.bb_value = s.bb_value.nrm := by rw [hr, n10, o10, c10, p10, k9]
  have Rpf : r.profit = (profitStep f s1).profit := by rw [hr, n11, o11, c11]
  have Rbp : r.bb_profit = (cashStep f (profitStep f s1)).bb_profit.nrm := by
    rw [hr, n12, o12]
  have Rb100 : r.bb_per_100 = (cashStep f (profitStep f s1)).bb_per_100.nrm := by
    rw [hr, n13, o13]
  have Rroi : r.roi = (roiStep f (cashStep f (profitStep f s1))).roi.nrm := by rw [hr, n14]
  have Rtab : r.tables = s.tables.nrm := by rw [hr, n15, o14, c13, p14, k14]
  have Rcur : r.currency = curNorm s.currency := by rw [hr, n16]
  have hps : profitStep f r = r := by
    apply profitStep_again f s1 r
    · rw [Rbuy, to_float_nrm, k6]
    · rw [Rpz, to_float_nrm, k7]
    · rw [Rbs, k4]
    · rw [Rbe, k5]
    · exact Rpf
  have hcs : cashStep f r = r := by
    apply cashStep_again f (profitStep f s1) r
    · rw [Rpf]
    · rw [Rbv, to_float_nrm, p10, k9]
    · rw [Rh, to_int_nrm, p9, k8]
    · exact Rbp
    · exact Rb100
  have hrs : roiStep f r = r := by
    apply roiStep_again f (cashStep f (profitStep f s1)) r
    · rw [Rbuy, to_float_nrm, c7, p7, k6]
    · rw [Rpf, c11]
    · exact Rroi
  have hns : normalizeStep r (curNorm r.currency) = r := by
    apply normalizeStep_again
    · rw [Rtab, nrm_idem]
    · rw [Rh, nrm_idem]
    · rw [Rbv, nrm_idem]
    · rw [Rbp, nrm_idem]
    · rw [Rb100, nrm_idem]
    · rw [Rbuy, nrm_idem]
    · rw [Rpz, nrm_idem]
    · rw [Rroi, nrm_idem]
    · rw [Rcur, curNorm_idem]
  have hdr : durationStep r = .some r := durationStep_again s s1 r hd Rdm Rst Ret
  unfold compute_metrics
  rw [show fmtLowerGet r.format = .some f from by rw [Rfmt]; exact hf]
  simp only [Option.bind_eq_bind, Option.some_bind, bind]
  rw [hdr]
  simp only [Option.some_bind, pure]
  rw [hps, hcs, hrs, hns]

/-- Witness for C9: a second run of the Metrics Engine on the computed cash
record reproduces it exactly. -/
theorem compute_metrics_idem_witness :
    ∃ r, compute_metrics exCash = .some r ∧ compute_metrics r = .some r := by
  obtain ⟨hcm, _⟩ := exCash_eval
  exact ⟨_, hcm, compute_metrics_idem exCash _ hcm⟩
